import Mathlib

/-!
Shallow embedding of `azure_principal_sync` (ServicePrincipal.py and its model
classes) for checking the natural-language specification against the code.

Conventions of the embedding:
* Wall-clock time (`datetime.now()`) is a `Nat` supplied by the environment.
* Every HTTP interaction is an oracle in `Env`: a `FetchResult` is either the
  parsed 200-payload or an `httpError` (the `requests.exceptions.HTTPError`
  raised by `raise_for_status`, carrying the message used in the log).
* Each Python method on the `ServicePrincipal` object becomes a function
  `Env → SPState → Except InvalidToken α × SPState`.  The state is always
  returned, also when an exception propagates, because the Python object
  survives a raise with all mutations performed so far.
* `SPState.log`, `SPState.http_trace`, `SPState.acquire_calls` and
  `SPState.sync_cycles` are ghost observables: the sequence of log_message
  calls, the URLs passed to `requests.get`, the number of
  `acquire_token_for_client` invocations and of `sync_service_principal`
  entries.  No code path reads them.
-/

/-- One `logger.log_message(message, level)` call. -/
structure LogEntry where
  message : String
  level : String
deriving Repr, DecidableEq

/-- Modelled from the spec: the `UserPrincipal` model class of
`azure_principal_sync.Models` (its source file is not under `src/`; only the
older `Azure/Models/User.py` variant without `permissions` is).  Per the spec
§3 it carries a unique user id, mutable name/email/enabled flag, the
first-observed `source`, and an accumulating list of permission ids; equality
of user principals is by user id alone (spec §4.3 "by id, via equality"). -/
structure UserPrincipal where
  user_id : String
  email : String
  name : String
  source : String
  permissions : List String
  enabled : Bool := true
deriving Repr, DecidableEq

/-- Modelled from the spec: `UserPrincipal.set_email` (setter used by the
email-enrichment pass). -/
def UserPrincipal.set_email (u : UserPrincipal) (email : String) : UserPrincipal :=
  { u with email := email }

/-- Python `UserPrincipal.__eq__` / `list.remove` / `list.count` equality:
solely by user id. -/
def userEq (a b : UserPrincipal) : Bool :=
  a.user_id == b.user_id

/-- `GroupPrincipal` (Models/Group.py): group id, display name and the
permission id of the app-role assignment that granted the group access.
`group_id` is an `Option` because `get_users_assigned_to_group` guards
against a `None` id. -/
structure GroupPrincipal where
  group_id : Option String
  display_name : String
  permissions_id : String
deriving Repr, DecidableEq

/-- `PrincipalPermissions` (Models/Permissions.py), field order as in
`__init__`. -/
structure PrincipalPermissions where
  id : String
  description : Option String
  display_name : String
  is_enabled : Bool
  permissions_value : String
deriving Repr, DecidableEq

/-- `PrincipalPermissions.enable`. -/
def PrincipalPermissions.enable (p : PrincipalPermissions) : PrincipalPermissions :=
  { p with is_enabled := true }

/-- `PrincipalPermissions.disable`. -/
def PrincipalPermissions.disable (p : PrincipalPermissions) : PrincipalPermissions :=
  { p with is_enabled := false }

/-- The `InvalidToken` exception (exceptions.py). -/
structure InvalidToken where
  message : String
deriving Repr, DecidableEq

/-- One record of the `appRoleAssignedTo` response
(`$select=id,principalId,principalDisplayName,principalType,deletedDateTime,appRoleId`). -/
structure AppRoleAssignment where
  principalId : String
  principalDisplayName : String
  principalType : String
  appRoleId : String
deriving Repr, DecidableEq

/-- One record of the `groups/<id>/members` response
(`$select=id,displayName,userPrincipalName`). -/
structure GroupMember where
  id : String
  displayName : String
  userPrincipalName : String
deriving Repr, DecidableEq

/-- One entry of `appRoles` in the service-principal record. -/
structure AppRole where
  id : String
  description : Option String
  displayName : String
  value : String
deriving Repr, DecidableEq

/-- One record of the `servicePrincipals?$filter=appId eq ...` response. -/
structure SPRecord where
  id : String
  displayName : String
deriving Repr, DecidableEq

/-- Outcome of one `requests.get`: either `raise_for_status` raised an
`HTTPError` (with the message interpolated into the error log), or the 200
payload parsed from JSON. -/
inductive FetchResult (α : Type) where
  | httpError (e : String)
  | ok (payload : α)
deriving Repr, DecidableEq

/-- The external collaborators: current time, the MSAL
`acquire_token_for_client` outcome (`some (access_token, expires_in)` when
`"access_token" in result`, otherwise `none` with `acquire_failure_detail`
standing for the logged error dict), and the directory responses of each
endpoint. -/
structure Env where
  now : Nat
  client_app_id : String
  acquire_result : Option (String × Nat)
  acquire_failure_detail : String
  sp_filter_response : FetchResult (List SPRecord)
  assignments_for_groups : FetchResult (List AppRoleAssignment)
  assignments_for_users : FetchResult (List AppRoleAssignment)
  sp_record_app_roles : FetchResult (List AppRole)
  group_members : String → FetchResult (List GroupMember)
  user_lookup : String → FetchResult String

/-- The mutable attributes of the `ServicePrincipal` object, plus the ghost
observables described in the header. -/
structure SPState where
  access_token : Option String
  access_token_expiry : Option Nat
  service_principal_id : Option String
  current_sync_users : List UserPrincipal
  log : List LogEntry
  http_trace : List String
  acquire_calls : Nat
  sync_cycles : Nat
deriving Repr, DecidableEq

/-- State right after `__init__`: no token, no expiry, no cached service
principal id, empty working list. -/
def initState : SPState :=
  { access_token := none, access_token_expiry := none, service_principal_id := none,
    current_sync_users := [], log := [], http_trace := [], acquire_calls := 0,
    sync_cycles := 0 }

/-- `self.__logger.log_message(message, level)` (ghost). -/
def log_message (st : SPState) (message : String) (level : String) : SPState :=
  { st with log := st.log ++ [{ message := message, level := level }] }

/-- Ghost record of one `requests.get(url, ...)` directory query. -/
def requests_get (st : SPState) (url : String) : SPState :=
  { st with http_trace := st.http_trace ++ [url] }

/-- The guard `self.__access_token is not None and self.__access_token_expiry
> current_time`.  (A set token always comes with a set expiry in reachable
states; the `some`/`none` mismatch would be a Python `TypeError` and is
modelled as `false`.) -/
def tokenIsValid (st : SPState) (current_time : Nat) : Bool :=
  match st.access_token, st.access_token_expiry with
  | some _, some expiry => current_time < expiry
  | _, _ => false

/-- `ServicePrincipal.__get_access_token` (lines 68-87). -/
def get_access_token (env : Env) (st : SPState) : Option String × SPState :=
  let current_time := env.now
  let st := log_message st ("Access token requested at: " ++ toString current_time) "debug"
  if tokenIsValid st current_time then
    (st.access_token, st)
  else
    let st := { st with acquire_calls := st.acquire_calls + 1 }
    match env.acquire_result with
    | some result =>
      let expire_time := current_time + result.2
      let st := { st with access_token_expiry := some expire_time,
                          access_token := some result.1 }
      (some result.1, st)
    | none =>
      let st := log_message st "Error getting access token" "error"
      let st := log_message st env.acquire_failure_detail "error"
      (none, st)

/-- `ServicePrincipal.check_access_token` (lines 52-66): return silently on a
valid cached token, otherwise refresh; raise `InvalidToken` only when the
stored token is still `None` afterwards. -/
def check_access_token (env : Env) (st : SPState) : Except InvalidToken Unit × SPState :=
  let current_time := env.now
  let st := log_message st ("Access token check requested at: " ++ toString current_time) "debug"
  if tokenIsValid st current_time then
    (.ok (), st)
  else
    let st := log_message st "Access token is invalid" "debug"
    let st := (get_access_token env st).2
    if st.access_token = none then
      (.error { message := "Access token is invalid" }, st)
    else
      (.ok (), st)

/-- `ServicePrincipal.get_service_principal` (lines 94-129). -/
def get_service_principal (env : Env) (st : SPState) :
    Except InvalidToken (Option String) × SPState :=
  match check_access_token env st with
  | (.error e, st) => (.error e, st)
  | (.ok _, st) =>
    match st.service_principal_id with
    | some spid => (.ok (some spid), st)
    | none =>
      let app_id := env.client_app_id
      let st := log_message st ("Getting service principal for App ID: " ++ app_id) "info"
      let url := "https://graph.microsoft.com/v1.0/servicePrincipals?$filter=appId eq \x27"
        ++ app_id ++ "\x27"
      let st := requests_get st url
      match env.sp_filter_response with
      | .httpError e =>
        (.ok none, log_message st ("Error getting service principal: " ++ e) "error")
      | .ok records =>
        match records with
        | [] => (.ok none, st)
        | r :: _ =>
          let st := { st with service_principal_id := some r.id }
          let st := log_message st
            ("Service principal found: " ++ r.displayName ++ " (" ++ r.id ++ ")") "info"
          (.ok (some r.id), st)

/-- The body of the per-principal loop of `get_assigned_groups`: keep the
entries of principal type `"Group"` as `GroupPrincipal`s. -/
def groupOfAssignment (p : AppRoleAssignment) : GroupPrincipal :=
  { group_id := some p.principalId, display_name := p.principalDisplayName,
    permissions_id := p.appRoleId }

/-- `ServicePrincipal.get_assigned_groups` (lines 131-169). -/
def get_assigned_groups (env : Env) (st : SPState) :
    Except InvalidToken (List GroupPrincipal) × SPState :=
  match check_access_token env st with
  | (.error e, st) => (.error e, st)
  | (.ok _, st) =>
    match get_service_principal env st with
    | (.error e, st) => (.error e, st)
    | (.ok none, st) => (.ok [], st)
    | (.ok (some service_principal_id), st) =>
      let st := log_message st
        ("Getting groups assigned to service principal: " ++ service_principal_id) "info"
      let target_url := "https://graph.microsoft.com/v1.0/servicePrincipals/"
        ++ service_principal_id
        ++ "/appRoleAssignedTo?$select=id,principalId,principalDisplayName,principalType,deletedDateTime, appRoleId"
      let st := requests_get st target_url
      match env.assignments_for_groups with
      | .httpError e =>
        (.ok [], log_message st ("Error getting groups assigned to service principal: " ++ e) "error")
      | .ok value =>
        let groups := (value.filter (fun p => p.principalType == "Group")).map groupOfAssignment
        (.ok groups, st)

/-- The common upsert of the two aggregation loops (lines 248-261 and
296-312): a fresh user id appends a new `UserPrincipal`; an already present
id has the first matching entry's permission list extended
(`existing.permissions.append`), and that entry removed
(`list.remove`, which compares by user id) and re-appended at the end. -/
def upsertUser (users : List UserPrincipal) (uid : String) (fresh : UserPrincipal)
    (permId : String) : List UserPrincipal :=
  if uid ∈ users.map (fun u => u.user_id) then
    match users.find? (fun u => u.user_id == uid) with
    | some existing =>
      (users.eraseP (fun u => userEq u existing)) ++
        [{ existing with permissions := existing.permissions ++ [permId] }]
    | none => users
  else
    users ++ [fresh]

/-- One iteration of the `get_assigned_users` response loop (lines 246-261):
only `"User"` principals are aggregated, entering with empty email, source
`"Directly"` and the assignment's app-role id. -/
def assignUserStep (users : List UserPrincipal) (principal : AppRoleAssignment) :
    List UserPrincipal :=
  if principal.principalType == "User" then
    upsertUser users principal.principalId
      { user_id := principal.principalId, email := "",
        name := principal.principalDisplayName, source := "Directly",
        permissions := [principal.appRoleId] }
      principal.appRoleId
  else
    users

/-- One iteration of the `get_users_assigned_to_group` member loop (lines
298-312): a fresh member enters with the member's email and name, the group's
display name as source and the group's permission id. -/
def groupMemberStep (group : GroupPrincipal) (users : List UserPrincipal)
    (user : GroupMember) : List UserPrincipal :=
  upsertUser users user.id
    { user_id := user.id, email := user.userPrincipalName, name := user.displayName,
      source := group.display_name, permissions := [group.permissions_id] }
    group.permissions_id

/-- What `get_assigned_users` hands back: either the internal
`__current_sync_users` list object itself (line 262 returns the attribute,
so the caller's `users` aliases it), or a fresh separate list (the early
`return []` at lines 227 and 242). -/
inductive UsersView where
  | sharedCurrent
  | separate (users : List UserPrincipal)
deriving Repr, DecidableEq

/-- `ServicePrincipal.get_assigned_users` (lines 217-262). -/
def get_assigned_users (env : Env) (st : SPState) :
    Except InvalidToken UsersView × SPState :=
  match check_access_token env st with
  | (.error e, st) => (.error e, st)
  | (.ok _, st) =>
    let st := { st with current_sync_users := [] }
    match get_service_principal env st with
    | (.error e, st) => (.error e, st)
    | (.ok none, st) => (.ok (.separate []), st)
    | (.ok (some service_principal_id), st) =>
      let st := log_message st
        ("Getting users assigned to service principal: " ++ service_principal_id) "info"
      let target_url := "https://graph.microsoft.com/v1.0/servicePrincipals/"
        ++ service_principal_id
        ++ "/appRoleAssignedTo?$select=id,principalId,principalDisplayName,principalType,deletedDateTime,appRoleId"
      let st := requests_get st target_url
      match env.assignments_for_users with
      | .httpError e =>
        (.ok (.separate []),
          log_message st ("Error getting users assigned to service principal: " ++ e) "error")
      | .ok value =>
        let st := { st with
          current_sync_users := value.foldl assignUserStep st.current_sync_users }
        (.ok .sharedCurrent, st)

/-- `ServicePrincipal.get_users_assigned_to_group` (lines 264-314).  Members
are recorded by mutating `__current_sync_users`; the local `users` list that
is returned is never appended to. -/
def get_users_assigned_to_group (env : Env) (group : GroupPrincipal) (st : SPState) :
    Except InvalidToken (List UserPrincipal) × SPState :=
  match check_access_token env st with
  | (.error e, st) => (.error e, st)
  | (.ok _, st) =>
    match get_service_principal env st with
    | (.error e, st) => (.error e, st)
    | (.ok none, st) => (.ok [], st)
    | (.ok (some _), st) =>
      match group.group_id with
      | none => (.ok [], log_message st "Group ID is None" "error")
      | some group_id =>
        let st := log_message st ("Getting users assigned to group: " ++ group_id) "info"
        let target_url := "https://graph.microsoft.com/v1.0/groups/" ++ group_id
          ++ "/members?$select=id,displayName,userPrincipalName"
        let st := requests_get st target_url
        let users : List UserPrincipal := []
        match env.group_members group_id with
        | .httpError e =>
          (.ok [], log_message st ("Error getting users assigned to group: " ++ e) "error")
        | .ok value =>
          let st := { st with
            current_sync_users := value.foldl (groupMemberStep group) st.current_sync_users }
          (.ok users, st)

/-- The URL of the per-user lookup of `get_user_principal_name`. -/
def userLookupUrl (user_id : String) : String :=
  "https://graph.microsoft.com/v1.0/users/" ++ user_id
    ++ "?$select=id,displayName,userPrincipalName"

/-- `ServicePrincipal.get_user_principal_name` (lines 316-340). -/
def get_user_principal_name (env : Env) (user_id : String) (st : SPState) :
    Except InvalidToken String × SPState :=
  match check_access_token env st with
  | (.error e, st) => (.error e, st)
  | (.ok _, st) =>
    let st := log_message st ("Getting user principal name for user: " ++ user_id) "info"
    let st := requests_get st (userLookupUrl user_id)
    match env.user_lookup user_id with
    | .httpError e =>
      (.ok "", log_message st ("Error getting user principal name: " ++ e) "error")
    | .ok upn => (.ok upn, st)

/-- The per-role body of the `get_assigned_permissions` loop (lines 203-211):
build the `PrincipalPermissions` with `is_enabled=True` and log it. -/
def permRoleStep (acc : List PrincipalPermissions × SPState) (app_role : AppRole) :
    List PrincipalPermissions × SPState :=
  let permissions := acc.1 ++
    [{ id := app_role.id, description := app_role.description,
       display_name := app_role.displayName, is_enabled := true,
       permissions_value := app_role.value }]
  let st := log_message acc.2
    ("Permission found: " ++ app_role.displayName ++ " (" ++ app_role.id ++ " - "
      ++ app_role.value ++ ")") "debug"
  (permissions, st)

/-- `ServicePrincipal.get_assigned_permissions` (lines 171-215). -/
def get_assigned_permissions (env : Env) (st : SPState) :
    Except InvalidToken (List PrincipalPermissions) × SPState :=
  match check_access_token env st with
  | (.error e, st) => (.error e, st)
  | (.ok _, st) =>
    match get_service_principal env st with
    | (.error e, st) => (.error e, st)
    | (.ok none, st) => (.ok [], st)
    | (.ok (some service_principal_id), st) =>
      let st := log_message st
        ("Getting permissions assigned to service principal: " ++ service_principal_id) "info"
      let target_url := "https://graph.microsoft.com/v1.0/servicePrincipals/"
        ++ service_principal_id
      let st := requests_get st target_url
      match env.sp_record_app_roles with
      | .httpError e =>
        (.ok [],
          log_message st ("Error getting permissions assigned to service principal: " ++ e) "error")
      | .ok app_roles =>
        match app_roles with
        | [] => (.ok [], log_message st "No permissions found" "debug")
        | _ =>
          let r := app_roles.foldl permRoleStep ([], st)
          (.ok r.1, r.2)

/-- The group-expansion loop of `sync_service_principal` (lines 356-357):
`users += self.get_users_assigned_to_group(group)`.  When `users` is the
shared `__current_sync_users` object, the in-place extend writes through to
the attribute; when it is a separate list only the local list grows. -/
def expandGroupsLoop (env : Env) (groups : List GroupPrincipal) (uview : UsersView)
    (st : SPState) : Except InvalidToken UsersView × SPState :=
  match groups with
  | [] => (.ok uview, st)
  | group :: rest =>
    match get_users_assigned_to_group env group st with
    | (.error e, st) => (.error e, st)
    | (.ok r, st) =>
      match uview with
      | .sharedCurrent =>
        expandGroupsLoop env rest .sharedCurrent
          { st with current_sync_users := st.current_sync_users ++ r }
      | .separate l => expandGroupsLoop env rest (.separate (l ++ r)) st

/-- `users.count(user)` of line 361: Python `list.count` uses
`UserPrincipal.__eq__`, i.e. counts entries with the same user id. -/
def countById (users : List UserPrincipal) (u : UserPrincipal) : Nat :=
  users.countP (fun x => userEq x u)

/-- The enrichment loop of `sync_service_principal` (lines 359-365): walk the
result list; warn on duplicate entries (by id); resolve the email of every
user whose email is still empty via `get_user_principal_name`.  `allUsers` is
the whole list the duplicate check counts over. -/
def enrichLoop (env : Env) (allUsers : List UserPrincipal) :
    List UserPrincipal → SPState → Except InvalidToken (List UserPrincipal) × SPState
  | [], st => (.ok [], st)
  | user :: rest, st =>
    let st := if countById allUsers user > 1 then
        log_message st ("User " ++ user.user_id ++ " is present multiple times") "warning"
      else st
    if user.email == "" then
      match get_user_principal_name env user.user_id st with
      | (.error e, st) => (.error e, st)
      | (.ok upn, st) =>
        match enrichLoop env allUsers rest st with
        | (.error e, st) => (.error e, st)
        | (.ok rest', st) => (.ok (user.set_email upn :: rest'), st)
    else
      match enrichLoop env allUsers rest st with
      | (.error e, st) => (.error e, st)
      | (.ok rest', st) => (.ok (user :: rest'), st)

/-- The list the name `users` denotes under a given view. -/
def UsersView.list (uview : UsersView) (st : SPState) : List UserPrincipal :=
  match uview with
  | .sharedCurrent => st.current_sync_users
  | .separate l => l

/-- `ServicePrincipal.sync_service_principal` (lines 343-367).  A `None`
Python return (identity unresolved) is `Option.none`; the in-place element
mutation of the enrichment loop is reflected into `current_sync_users` when
`users` aliases it (`sync_cycles` is the ghost cycle counter). -/
def sync_service_principal (env : Env) (st : SPState) :
    Except InvalidToken (Option (List UserPrincipal)) × SPState :=
  let st := { st with sync_cycles := st.sync_cycles + 1 }
  let st := log_message st "Syncing service principal" "info"
  match get_service_principal env st with
  | (.error e, st) => (.error e, st)
  | (.ok none, st) => (.ok none, log_message st "Service principal not found" "error")
  | (.ok (some _), st) =>
    match get_assigned_groups env st with
    | (.error e, st) => (.error e, st)
    | (.ok groups, st) =>
      match get_assigned_users env st with
      | (.error e, st) => (.error e, st)
      | (.ok uview, st) =>
        match expandGroupsLoop env groups uview st with
        | (.error e, st) => (.error e, st)
        | (.ok uview, st) =>
          let users0 := uview.list st
          match enrichLoop env users0 users0 st with
          | (.error e, st) => (.error e, st)
          | (.ok users, st) =>
            let st := match uview with
              | .sharedCurrent => { st with current_sync_users := users }
              | .separate _ => st
            (.ok (some users), st)

/-- Which optional callbacks `manual_sync_service_principal` was given. -/
structure Callbacks where
  user_callback : Bool
  group_callback : Bool
  permission_callback : Bool
deriving Repr, DecidableEq

/-- Observables of one `manual_sync_service_principal` call: the direct
return value, and the argument each present callback received (`none` when
the callback was absent). -/
structure ManualSyncOut where
  users_ret : Option (List UserPrincipal)
  user_cb_arg : Option (Option (List UserPrincipal))
  group_cb_arg : Option (List GroupPrincipal)
  permission_cb_arg : Option (List PrincipalPermissions)
deriving Repr, DecidableEq

/-- `ServicePrincipal.manual_sync_service_principal` (lines 394-408). -/
def manual_sync_service_principal (env : Env) (cbs : Callbacks) (st : SPState) :
    Except InvalidToken ManualSyncOut × SPState :=
  let st := log_message st "Manual sync of service principal requested" "info"
  match sync_service_principal env st with
  | (.error e, st) => (.error e, st)
  | (.ok users, st) =>
    let user_cb_arg := if cbs.user_callback then some users else none
    match (if cbs.group_callback then
        match get_assigned_groups env st with
        | (.error e, st) => (.error e, st)
        | (.ok groups, st) => (.ok (some groups), st)
      else (.ok none, st) : Except InvalidToken (Option (List GroupPrincipal)) × SPState) with
    | (.error e, st) => (.error e, st)
    | (.ok group_cb_arg, st) =>
      match (if cbs.permission_callback then
          match get_assigned_permissions env st with
          | (.error e, st) => (.error e, st)
          | (.ok permissions, st) => (.ok (some permissions), st)
        else (.ok none, st) : Except InvalidToken (Option (List PrincipalPermissions)) × SPState) with
      | (.error e, st) => (.error e, st)
      | (.ok permission_cb_arg, st) =>
        (.ok { users_ret := if cbs.user_callback then none else users,
               user_cb_arg := user_cb_arg, group_cb_arg := group_cb_arg,
               permission_cb_arg := permission_cb_arg }, st)

instance {α : Type} [DecidableEq α] : DecidableEq (Except InvalidToken α) := fun a b =>
  match a, b with
  | .ok x, .ok y => if h : x = y then .isTrue (by rw [h]) else .isFalse (by simp [h])
  | .error e, .error f => if h : e = f then .isTrue (by rw [h]) else .isFalse (by simp [h])
  | .ok _, .error _ => .isFalse (by simp)
  | .error _, .ok _ => .isFalse (by simp)

/-- The user-id column of a working list. -/
def idsOf (users : List UserPrincipal) : List String :=
  users.map fun u => u.user_id

/-- The `.ok` payload of one run of `sync_service_principal` (`none` when
`InvalidToken` propagated; `some x` when the call returned, `x` being the
Python return value: `none` for `None`, `some users` for a list). -/
def syncValue (env : Env) (st : SPState) : Option (Option (List UserPrincipal)) :=
  match (sync_service_principal env st).1 with
  | .ok v => some v
  | .error _ => none

theorem find?_eraseP_of_excl {α : Type} (l : List α) (p q : α → Bool)
    (h : ∀ a, q a = true → p a = false) : (l.eraseP q).find? p = l.find? p := by
  induction l with
  | nil => simp
  | cons hd tl ih =>
    by_cases hq : q hd
    · rw [List.eraseP_cons_of_pos hq, List.find?_cons_of_neg _ (by simp [h hd hq])]
    · rw [List.eraseP_cons_of_neg hq]
      by_cases hp : p hd
      · rw [List.find?_cons_of_pos _ hp, List.find?_cons_of_pos _ hp]
      · rw [List.find?_cons_of_neg _ hp, List.find?_cons_of_neg _ hp, ih]

theorem nodup_eraseP_idsOf (users : List UserPrincipal) (p : UserPrincipal → Bool)
    (h : (idsOf users).Nodup) : (idsOf (users.eraseP p)).Nodup := by
  unfold idsOf at h ⊢
  exact List.Nodup.sublist ((List.eraseP_sublist users).map fun u => u.user_id) h

theorem not_mem_idsOf_eraseP_self (users : List UserPrincipal) (uid : String)
    (h : (idsOf users).Nodup) :
    uid ∉ idsOf (users.eraseP (fun u => u.user_id == uid)) := by
  induction users with
  | nil => simp [idsOf]
  | cons hd tl ih =>
    simp only [idsOf, List.map_cons, List.nodup_cons] at h
    by_cases hq : (hd.user_id == uid) = true
    · rw [List.eraseP_cons_of_pos (p := fun u : UserPrincipal => u.user_id == uid) hq]
      have heq : hd.user_id = uid := by simpa using hq
      rw [← heq]
      simpa [idsOf] using h.1
    · rw [List.eraseP_cons_of_neg (p := fun u : UserPrincipal => u.user_id == uid) hq]
      simp only [idsOf, List.map_cons, List.mem_cons]
      rintro (hmem | hmem)
      · exact hq (by simp [hmem])
      · exact ih h.2 (by simpa [idsOf] using hmem)

theorem eraseP_self_of_not_mem (users : List UserPrincipal) (uid : String)
    (h : uid ∉ idsOf users) :
    users.eraseP (fun u => u.user_id == uid) = users := by
  apply List.eraseP_of_forall_not
  intro a ha hbeq
  exact h (by simp only [idsOf, List.mem_map]; exact ⟨a, ha, by simpa using hbeq⟩)

theorem upsertUser_shape (users : List UserPrincipal) (uid : String)
    (fresh : UserPrincipal) (permId : String) (hf : fresh.user_id = uid) :
    ∃ u, upsertUser users uid fresh permId =
      users.eraseP (fun x => x.user_id == uid) ++ [u] ∧ u.user_id = uid := by
  by_cases hm : uid ∈ users.map (fun u => u.user_id)
  · have hsome : (users.find? (fun u => u.user_id == uid)).isSome := by
      rw [List.find?_isSome]
      obtain ⟨u, hu, he⟩ := List.mem_map.mp hm
      exact ⟨u, hu, by simp [he]⟩
    obtain ⟨existing, hfind⟩ := Option.isSome_iff_exists.mp hsome
    have hex : existing.user_id = uid := by simpa using List.find?_some hfind
    have hdef : upsertUser users uid fresh permId =
        users.eraseP (fun u => userEq u existing) ++
          [{ existing with permissions := existing.permissions ++ [permId] }] := by
      unfold upsertUser
      rw [if_pos hm, hfind]
    have hpred : (fun u => userEq u existing) = (fun x => x.user_id == uid) := by
      funext u; simp [userEq, hex]
    rw [hpred] at hdef
    exact ⟨_, hdef, hex⟩
  · have hdef : upsertUser users uid fresh permId = users ++ [fresh] := by
      unfold upsertUser
      rw [if_neg hm]
    rw [hdef, eraseP_self_of_not_mem users uid (by simpa [idsOf] using hm)]
    exact ⟨fresh, rfl, hf⟩

theorem upsertUser_nodup (users : List UserPrincipal) (uid : String)
    (fresh : UserPrincipal) (permId : String) (hf : fresh.user_id = uid)
    (h : (idsOf users).Nodup) :
    (idsOf (upsertUser users uid fresh permId)).Nodup := by
  obtain ⟨u, he, hu⟩ := upsertUser_shape users uid fresh permId hf
  rw [he]
  simp only [idsOf, List.map_append, List.map_cons, List.map_nil, List.nodup_append]
  refine ⟨nodup_eraseP_idsOf users _ h, by simp, ?_⟩
  intro a ha hb
  simp only [List.mem_singleton] at hb
  subst hb
  rw [hu] at ha
  exact not_mem_idsOf_eraseP_self users uid h ha

theorem upsertUser_update (users : List UserPrincipal) (uid : String)
    (fresh : UserPrincipal) (permId : String) (u : UserPrincipal)
    (hn : (idsOf users).Nodup) (hu : u ∈ users) (hid : u.user_id = uid) :
    upsertUser users uid fresh permId =
      users.eraseP (fun x => x.user_id == uid) ++
        [{ u with permissions := u.permissions ++ [permId] }] := by
  have hm : uid ∈ users.map (fun x => x.user_id) := List.mem_map.mpr ⟨u, hu, hid⟩
  have hsome : (users.find? (fun x => x.user_id == uid)).isSome := by
    rw [List.find?_isSome]
    exact ⟨u, hu, by simp [hid]⟩
  obtain ⟨existing, hfind⟩ := Option.isSome_iff_exists.mp hsome
  have hex : existing.user_id = uid := by simpa using List.find?_some hfind
  have hnu : (idsOf users).Nodup := by simpa [idsOf] using hn
  have heu : existing = u :=
    List.inj_on_of_nodup_map (by simpa [idsOf] using hn)
      (List.mem_of_find?_eq_some hfind) hu (by rw [hex, hid])
  have hdef : upsertUser users uid fresh permId =
      users.eraseP (fun x => userEq x existing) ++
        [{ existing with permissions := existing.permissions ++ [permId] }] := by
    unfold upsertUser
    rw [if_pos hm, hfind]
  have hpred : (fun x => userEq x existing) = (fun x => x.user_id == uid) := by
    funext x; simp [userEq, hex]
  rw [hpred] at hdef
  rw [hdef, heu]

theorem upsertUser_find?_self_update (users : List UserPrincipal) (uid : String)
    (fresh : UserPrincipal) (permId : String) (u : UserPrincipal)
    (hn : (idsOf users).Nodup)
    (hfind : users.find? (fun x => x.user_id == uid) = some u) :
    (upsertUser users uid fresh permId).find? (fun x => x.user_id == uid) =
      some { u with permissions := u.permissions ++ [permId] } := by
  have hu := List.mem_of_find?_eq_some hfind
  have hid : u.user_id = uid := by simpa using List.find?_some hfind
  rw [upsertUser_update users uid fresh permId u hn hu hid, List.find?_append]
  have hnone : (users.eraseP (fun x => x.user_id == uid)).find? (fun x => x.user_id == uid)
      = none := by
    rw [List.find?_eq_none]
    intro x hx hbeq
    exact not_mem_idsOf_eraseP_self users uid hn
      (by simp only [idsOf, List.mem_map]; exact ⟨x, hx, by simpa using hbeq⟩)
  rw [hnone]
  simp [hid]

theorem upsertUser_find?_self_fresh (users : List UserPrincipal) (uid : String)
    (fresh : UserPrincipal) (permId : String) (hf : fresh.user_id = uid)
    (hm : uid ∉ idsOf users) :
    (upsertUser users uid fresh permId).find? (fun x => x.user_id == uid) = some fresh := by
  unfold upsertUser
  rw [if_neg (by simpa [idsOf] using hm), List.find?_append]
  have hnone : users.find? (fun x => x.user_id == uid) = none := by
    rw [List.find?_eq_none]
    intro x hx hbeq
    exact hm (by simp only [idsOf, List.mem_map]; exact ⟨x, hx, by simpa using hbeq⟩)
  rw [hnone]
  simp [hf]

theorem upsertUser_find?_other (users : List UserPrincipal) (uid : String)
    (fresh : UserPrincipal) (permId : String) (v : String)
    (hf : fresh.user_id = uid) (hv : v ≠ uid) :
    (upsertUser users uid fresh permId).find? (fun x => x.user_id == v) =
      users.find? (fun x => x.user_id == v) := by
  obtain ⟨u, he, hu⟩ := upsertUser_shape users uid fresh permId hf
  rw [he, List.find?_append]
  have htail : [u].find? (fun x => x.user_id == v) = none := by
    have hne : (u.user_id == v) = false := by
      simp [hu]
      exact Ne.symm hv
    simp [List.find?, hne]
  have hexcl : ∀ a : UserPrincipal, ((a.user_id == uid) = true) → ((a.user_id == v) = false) := by
    intro a ha
    have haid : a.user_id = uid := by simpa using ha
    simp [haid]
    exact Ne.symm hv
  rw [htail, find?_eraseP_of_excl users _ _ hexcl]
  simp

theorem foldl_preserve {β : Type} (f : List UserPrincipal → β → List UserPrincipal)
    (P : List UserPrincipal → Prop) (hf : ∀ us x, P us → P (f us x)) :
    ∀ (l : List β) (us : List UserPrincipal), P us → P (l.foldl f us) := by
  intro l
  induction l with
  | nil => intro us h; simpa using h
  | cons hd tl ih =>
    intro us h
    rw [List.foldl_cons]
    exact ih (f us hd) (hf us hd h)

theorem assignUserStep_nodup (users : List UserPrincipal) (p : AppRoleAssignment)
    (h : (idsOf users).Nodup) : (idsOf (assignUserStep users p)).Nodup := by
  unfold assignUserStep
  by_cases ht : (p.principalType == "User") = true
  · rw [if_pos ht]
    exact upsertUser_nodup users p.principalId _ p.appRoleId rfl h
  · rw [if_neg ht]
    exact h

theorem groupMemberStep_nodup (group : GroupPrincipal) (users : List UserPrincipal)
    (m : GroupMember) (h : (idsOf users).Nodup) :
    (idsOf (groupMemberStep group users m)).Nodup :=
  upsertUser_nodup users m.id _ group.permissions_id rfl h

theorem foldl_assignUserStep_nodup (l : List AppRoleAssignment)
    (users : List UserPrincipal) (h : (idsOf users).Nodup) :
    (idsOf (l.foldl assignUserStep users)).Nodup :=
  foldl_preserve assignUserStep (fun us => (idsOf us).Nodup)
    (fun us x hx => assignUserStep_nodup us x hx) l users h

theorem foldl_groupMemberStep_nodup (group : GroupPrincipal) (l : List GroupMember)
    (users : List UserPrincipal) (h : (idsOf users).Nodup) :
    (idsOf (l.foldl (groupMemberStep group) users)).Nodup :=
  foldl_preserve (groupMemberStep group) (fun us => (idsOf us).Nodup)
    (fun us x hx => groupMemberStep_nodup group us x hx) l users h

theorem foldl_groupMemberStep_find? (group : GroupPrincipal) (ms : List GroupMember) :
    ∀ (users : List UserPrincipal) (uid : String) (u : UserPrincipal),
    (idsOf users).Nodup → users.find? (fun x => x.user_id == uid) = some u →
    (ms.foldl (groupMemberStep group) users).find? (fun x => x.user_id == uid) =
      some { u with permissions := u.permissions ++
        (ms.filter (fun m => m.id == uid)).map (fun _ => group.permissions_id) } := by
  induction ms with
  | nil =>
    intro users uid u hn hf
    simpa using hf
  | cons m rest ih =>
    intro users uid u hn hf
    rw [List.foldl_cons]
    have hn' : (idsOf (groupMemberStep group users m)).Nodup :=
      groupMemberStep_nodup group users m hn
    by_cases hm : (m.id == uid) = true
    · have hmeq : m.id = uid := by simpa using hm
      have hstep : (groupMemberStep group users m).find? (fun x => x.user_id == uid) =
          some { u with permissions := u.permissions ++ [group.permissions_id] } := by
        unfold groupMemberStep
        rw [hmeq]
        exact upsertUser_find?_self_update users uid _ group.permissions_id u hn hf
      have := ih (groupMemberStep group users m) uid _ hn' hstep
      rw [this]
      simp [List.filter_cons, hm, List.append_assoc]
    · have hstep : (groupMemberStep group users m).find? (fun x => x.user_id == uid) =
          users.find? (fun x => x.user_id == uid) := by
        unfold groupMemberStep
        exact upsertUser_find?_other users m.id _ group.permissions_id uid rfl
          (fun hvu => hm (by simp [hvu]))
      have := ih (groupMemberStep group users m) uid u hn' (by rw [hstep]; exact hf)
      rw [this]
      simp [List.filter_cons, hm]

@[simp] theorem log_message_access_token (st : SPState) (m l : String) :
    (log_message st m l).access_token = st.access_token := rfl

@[simp] theorem log_message_access_token_expiry (st : SPState) (m l : String) :
    (log_message st m l).access_token_expiry = st.access_token_expiry := rfl

@[simp] theorem log_message_service_principal_id (st : SPState) (m l : String) :
    (log_message st m l).service_principal_id = st.service_principal_id := rfl

@[simp] theorem log_message_current_sync_users (st : SPState) (m l : String) :
    (log_message st m l).current_sync_users = st.current_sync_users := rfl

@[simp] theorem log_message_http_trace (st : SPState) (m l : String) :
    (log_message st m l).http_trace = st.http_trace := rfl

@[simp] theorem log_message_acquire_calls (st : SPState) (m l : String) :
    (log_message st m l).acquire_calls = st.acquire_calls := rfl

@[simp] theorem log_message_sync_cycles (st : SPState) (m l : String) :
    (log_message st m l).sync_cycles = st.sync_cycles := rfl

@[simp] theorem requests_get_access_token (st : SPState) (u : String) :
    (requests_get st u).access_token = st.access_token := rfl

@[simp] theorem requests_get_access_token_expiry (st : SPState) (u : String) :
    (requests_get st u).access_token_expiry = st.access_token_expiry := rfl

@[simp] theorem requests_get_service_principal_id (st : SPState) (u : String) :
    (requests_get st u).service_principal_id = st.service_principal_id := rfl

@[simp] theorem requests_get_current_sync_users (st : SPState) (u : String) :
    (requests_get st u).current_sync_users = st.current_sync_users := rfl

@[simp] theorem requests_get_log (st : SPState) (u : String) :
    (requests_get st u).log = st.log := rfl

@[simp] theorem requests_get_acquire_calls (st : SPState) (u : String) :
    (requests_get st u).acquire_calls = st.acquire_calls := rfl

@[simp] theorem requests_get_sync_cycles (st : SPState) (u : String) :
    (requests_get st u).sync_cycles = st.sync_cycles := rfl

@[simp] theorem tokenIsValid_log_message (st : SPState) (m l : String) (t : Nat) :
    tokenIsValid (log_message st m l) t = tokenIsValid st t := rfl

theorem get_access_token_frame (env : Env) (st : SPState) :
    (get_access_token env st).2.current_sync_users = st.current_sync_users ∧
    (get_access_token env st).2.service_principal_id = st.service_principal_id ∧
    (get_access_token env st).2.http_trace = st.http_trace ∧
    (get_access_token env st).2.sync_cycles = st.sync_cycles := by
  simp only [get_access_token]
  split
  · simp
  · split <;> simp [log_message]

theorem get_access_token_fail_frame (env : Env) (st : SPState)
    (hfail : env.acquire_result = none) :
    (get_access_token env st).2.access_token = st.access_token ∧
    (get_access_token env st).2.access_token_expiry = st.access_token_expiry := by
  simp only [get_access_token]
  rw [hfail]
  split <;> simp [log_message]

theorem check_frame (env : Env) (st : SPState) :
    (check_access_token env st).2.current_sync_users = st.current_sync_users ∧
    (check_access_token env st).2.service_principal_id = st.service_principal_id ∧
    (check_access_token env st).2.http_trace = st.http_trace ∧
    (check_access_token env st).2.sync_cycles = st.sync_cycles := by
  simp only [check_access_token]
  split
  · simp
  · obtain ⟨h1, h2, h3, h4⟩ := get_access_token_frame env
      (log_message (log_message st ("Access token check requested at: " ++ toString env.now) "debug")
        "Access token is invalid" "debug")
    split <;> simp_all

theorem check_fail_frame (env : Env) (st : SPState) (hfail : env.acquire_result = none) :
    (check_access_token env st).2.access_token = st.access_token ∧
    (check_access_token env st).2.access_token_expiry = st.access_token_expiry := by
  simp only [check_access_token]
  split
  · simp
  · obtain ⟨h1, h2⟩ := get_access_token_fail_frame env
      (log_message (log_message st ("Access token check requested at: " ++ toString env.now) "debug")
        "Access token is invalid" "debug") hfail
    split <;> simp_all

theorem check_ok_of_valid (env : Env) (st : SPState) (t : String) (e : Nat)
    (h1 : st.access_token = some t) (h2 : st.access_token_expiry = some e)
    (hv : env.now < e) :
    check_access_token env st =
      (.ok (), log_message st ("Access token check requested at: " ++ toString env.now) "debug") := by
  simp only [check_access_token]
  have hval : tokenIsValid
      (log_message st ("Access token check requested at: " ++ toString env.now) "debug")
      env.now = true := by
    simp [tokenIsValid, h1, h2, hv]
  rw [if_pos hval]

theorem gsp_frame (env : Env) (st : SPState) :
    (get_service_principal env st).2.current_sync_users = st.current_sync_users ∧
    (get_service_principal env st).2.sync_cycles = st.sync_cycles := by
  obtain ⟨c1, c2, c3, c4⟩ := check_frame env st
  simp only [get_service_principal]
  split
  · rename_i e st2 heq
    rw [heq] at c1 c4
    simp at c1 c4
    simp [c1, c4]
  · rename_i u st2 heq
    rw [heq] at c1 c4
    simp at c1 c4
    split
    · simp [c1, c4]
    · split
      · simp [c1, c4]
      · split <;> simp [c1, c4]

theorem gsp_cached (env : Env) (st : SPState) (i : String)
    (hi : st.service_principal_id = some i) :
    get_service_principal env st =
      ((check_access_token env st).1.map fun _ => some i, (check_access_token env st).2) := by
  obtain ⟨c1, c2, c3, c4⟩ := check_frame env st
  simp only [get_service_principal]
  split
  · rename_i e st2 heq
    rw [heq]
    simp [Except.map]
  · rename_i u st2 heq
    rw [heq] at c2
    simp at c2
    rw [heq]
    rw [c2, hi]
    simp [Except.map]

theorem gsp_ok_some_spid (env : Env) (st : SPState) (i : String) (st' : SPState)
    (h : get_service_principal env st = (.ok (some i), st')) :
    st'.service_principal_id = some i := by
  obtain ⟨c1, c2, c3, c4⟩ := check_frame env st
  simp only [get_service_principal] at h
  split at h
  · simp at h
  · rename_i u st2 heq
    rw [heq] at c2
    simp at c2
    split at h
    · rename_i spid heq2
      simp at h
      obtain ⟨h1, h2⟩ := h
      rw [← h2, heq2, h1]
    · split at h
      · simp at h
      · split at h
        · simp at h
        · rename_i records r rest
          simp at h
          obtain ⟨h1, h2⟩ := h
          rw [← h2]
          simp [log_message, h1]

theorem gag_frame (env : Env) (st : SPState) :
    (get_assigned_groups env st).2.current_sync_users = st.current_sync_users ∧
    (get_assigned_groups env st).2.sync_cycles = st.sync_cycles := by
  obtain ⟨c1, c2, c3, c4⟩ := check_frame env st
  simp only [get_assigned_groups]
  split
  · rename_i e st2 heq
    rw [heq] at c1 c4
    simp at c1 c4
    simp [c1, c4]
  · rename_i u st2 heq
    rw [heq] at c1 c4
    simp at c1 c4
    obtain ⟨g1, g2⟩ := gsp_frame env st2
    split
    · rename_i e st3 heq2
      rw [heq2] at g1 g2
      simp at g1 g2
      simp [g1, g2, c1, c4]
    · rename_i st3 heq2
      rw [heq2] at g1 g2
      simp at g1 g2
      simp [g1, g2, c1, c4]
    · rename_i spid st3 heq2
      rw [heq2] at g1 g2
      simp at g1 g2
      split <;> simp [g1, g2, c1, c4]

theorem gau_cycles (env : Env) (st : SPState) :
    (get_assigned_users env st).2.sync_cycles = st.sync_cycles := by
  obtain ⟨c1, c2, c3, c4⟩ := check_frame env st
  simp only [get_assigned_users]
  split
  · rename_i e st2 heq
    rw [heq] at c4
    simp at c4
    simp [c4]
  · rename_i u st2 heq
    rw [heq] at c4
    simp at c4
    obtain ⟨g1, g2⟩ := gsp_frame env { st2 with current_sync_users := [] }
    split
    · rename_i e st3 heq2
      rw [heq2] at g2
      simp at g2
      simp [g2, c4]
    · rename_i st3 heq2
      rw [heq2] at g2
      simp at g2
      simp [g2, c4]
    · rename_i spid st3 heq2
      rw [heq2] at g2
      simp at g2
      split <;> simp [g2, c4]

theorem gau_shape (env : Env) (st : SPState) (uv : UsersView) (st' : SPState)
    (h : get_assigned_users env st = (.ok uv, st')) :
    (uv = .separate [] ∧ st'.current_sync_users = []) ∨
    (∃ l, env.assignments_for_users = .ok l ∧ uv = .sharedCurrent ∧
      st'.current_sync_users = l.foldl assignUserStep []) := by
  simp only [get_assigned_users] at h
  split at h
  · simp at h
  · rename_i u st2 heq
    obtain ⟨g1, g2⟩ := gsp_frame env { st2 with current_sync_users := [] }
    split at h
    · simp at h
    · rename_i st3 heq2
      rw [heq2] at g1
      simp at g1
      simp at h
      obtain ⟨h1, h2⟩ := h
      exact Or.inl ⟨h1.symm, by rw [← h2, g1]⟩
    · rename_i spid st3 heq2
      rw [heq2] at g1
      simp at g1
      split at h
      · rename_i e heq3
        simp at h
        obtain ⟨h1, h2⟩ := h
        exact Or.inl ⟨h1.symm, by rw [← h2]; simp [g1]⟩
      · rename_i value heq3
        simp at h
        obtain ⟨h1, h2⟩ := h
        refine Or.inr ⟨value, heq3, h1.symm, ?_⟩
        rw [← h2]
        simp [g1]

theorem gau_shared (env : Env) (st : SPState) (l : List AppRoleAssignment) (i : String)
    (uv : UsersView) (st' : SPState)
    (hl : env.assignments_for_users = .ok l) (hi : st.service_principal_id = some i)
    (h : get_assigned_users env st = (.ok uv, st')) :
    uv = .sharedCurrent ∧ st'.current_sync_users = l.foldl assignUserStep [] := by
  obtain ⟨c1, c2, c3, c4⟩ := check_frame env st
  simp only [get_assigned_users] at h
  split at h
  · simp at h
  · rename_i u st2 heq
    rw [heq] at c2
    simp at c2
    have hi2 : ({ st2 with current_sync_users := [] } : SPState).service_principal_id = some i := by
      simp [c2, hi]
    have hgc := gsp_cached env { st2 with current_sync_users := [] } i hi2
    obtain ⟨g1, g2⟩ := gsp_frame env { st2 with current_sync_users := [] }
    split at h
    · simp at h
    · rename_i st3 heq2
      rw [hgc] at heq2
      rcases hck : (check_access_token env { st2 with current_sync_users := [] }).1 with e2 | u2 <;>
        rw [hck] at heq2 <;> simp [Except.map] at heq2
    · rename_i spid st3 heq2
      rw [heq2] at g1
      simp at g1
      rw [hl] at h
      simp at h
      obtain ⟨h1, h2⟩ := h
      exact ⟨h1.symm, by rw [← h2]; simp [g1]⟩

@[simp] theorem requests_get_http_trace (st : SPState) (u : String) :
    (requests_get st u).http_trace = st.http_trace ++ [u] := rfl

@[simp] theorem log_message_log (st : SPState) (m l : String) :
    (log_message st m l).log = st.log ++ [{ message := m, level := l }] := rfl

theorem gug_ret (env : Env) (g : GroupPrincipal) (st : SPState) :
    (∃ e, (get_users_assigned_to_group env g st).1 = .error e) ∨
    (get_users_assigned_to_group env g st).1 = .ok ([] : List UserPrincipal) := by
  simp only [get_users_assigned_to_group]
  repeat
    first
    | exact Or.inl ⟨_, rfl⟩
    | exact Or.inr rfl
    | split

theorem gug_ret_eq (env : Env) (g : GroupPrincipal) (st : SPState)
    (r : List UserPrincipal) (st' : SPState)
    (h : get_users_assigned_to_group env g st = (.ok r, st')) : r = [] := by
  rcases gug_ret env g st with ⟨e, he⟩ | hok
  · rw [h] at he
    simp at he
  · rw [h] at hok
    simp at hok
    exact hok

theorem gug_cycles (env : Env) (g : GroupPrincipal) (st : SPState) :
    (get_users_assigned_to_group env g st).2.sync_cycles = st.sync_cycles := by
  obtain ⟨c1, c2, c3, c4⟩ := check_frame env st
  simp only [get_users_assigned_to_group]
  split
  · rename_i e st2 heq
    rw [heq] at c4
    simp at c4
    simp [c4]
  · rename_i u st2 heq
    rw [heq] at c4
    simp at c4
    obtain ⟨g1, g2⟩ := gsp_frame env st2
    split
    · rename_i e st3 heq2
      rw [heq2] at g2
      simp at g2
      simp [g2, c4]
    · rename_i st3 heq2
      rw [heq2] at g2
      simp at g2
      simp [g2, c4]
    · rename_i spid st3 heq2
      rw [heq2] at g2
      simp at g2
      split
      · simp [g2, c4]
      · split <;> simp [g2, c4]

theorem gug_current (env : Env) (g : GroupPrincipal) (st : SPState) :
    (get_users_assigned_to_group env g st).2.current_sync_users = st.current_sync_users ∨
    ∃ l : List GroupMember, (get_users_assigned_to_group env g st).2.current_sync_users =
      l.foldl (groupMemberStep g) st.current_sync_users := by
  obtain ⟨c1, c2, c3, c4⟩ := check_frame env st
  simp only [get_users_assigned_to_group]
  split
  · rename_i e st2 heq
    rw [heq] at c1
    simp at c1
    exact Or.inl (by simp [c1])
  · rename_i u st2 heq
    rw [heq] at c1
    simp at c1
    obtain ⟨g1, g2⟩ := gsp_frame env st2
    split
    · rename_i e st3 heq2
      rw [heq2] at g1
      simp at g1
      exact Or.inl (by simp [g1, c1])
    · rename_i st3 heq2
      rw [heq2] at g1
      simp at g1
      exact Or.inl (by simp [g1, c1])
    · rename_i spid st3 heq2
      rw [heq2] at g1
      simp at g1
      split
      · exact Or.inl (by simp [g1, c1])
      · split
        · exact Or.inl (by simp [g1, c1])
        · rename_i value heq3
          exact Or.inr ⟨value, by simp [g1, c1]⟩

theorem gug_nodup (env : Env) (g : GroupPrincipal) (st : SPState)
    (h : (idsOf st.current_sync_users).Nodup) :
    (idsOf (get_users_assigned_to_group env g st).2.current_sync_users).Nodup := by
  rcases gug_current env g st with hc | ⟨l, hc⟩
  · rw [hc]
    exact h
  · rw [hc]
    exact foldl_groupMemberStep_nodup g l _ h

theorem exp_cycles (env : Env) (groups : List GroupPrincipal) :
    ∀ (uv : UsersView) (st : SPState),
    (expandGroupsLoop env groups uv st).2.sync_cycles = st.sync_cycles := by
  induction groups with
  | nil => intro uv st; rfl
  | cons g rest ih =>
    intro uv st
    simp only [expandGroupsLoop]
    split
    · rename_i e st2 heq
      have hcy := gug_cycles env g st
      rw [heq] at hcy
      simp at hcy
      simp [hcy]
    · rename_i r st2 heq
      have hcy := gug_cycles env g st
      rw [heq] at hcy
      simp at hcy
      split
      · rw [ih]
        simpa using hcy
      · rw [ih]
        exact hcy

theorem exp_shape (env : Env) (groups : List GroupPrincipal) :
    ∀ (uv : UsersView) (st : SPState) (uv' : UsersView) (st' : SPState),
    expandGroupsLoop env groups uv st = (.ok uv', st') →
    uv' = uv ∧ ((idsOf st.current_sync_users).Nodup → (idsOf st'.current_sync_users).Nodup) := by
  induction groups with
  | nil =>
    intro uv st uv' st' h
    simp only [expandGroupsLoop] at h
    simp at h
    obtain ⟨h1, h2⟩ := h
    exact ⟨h1.symm, by rw [← h2]; exact id⟩
  | cons g rest ih =>
    intro uv st uv' st' h
    simp only [expandGroupsLoop] at h
    split at h
    · simp at h
    · rename_i r st2 heq
      have hr : r = [] := gug_ret_eq env g st r st2 heq
      subst hr
      have hnod : (idsOf st.current_sync_users).Nodup →
          (idsOf st2.current_sync_users).Nodup := by
        intro hn
        have hx := gug_nodup env g st hn
        rw [heq] at hx
        simpa using hx
      split at h
      · obtain ⟨h1, h2⟩ := ih .sharedCurrent _ uv' st' h
        exact ⟨h1, fun hn => h2 (by simpa using hnod hn)⟩
      · rename_i l
        obtain ⟨h1, h2⟩ := ih (.separate (l ++ [])) st2 uv' st' h
        refine ⟨by rw [h1]; simp, fun hn => h2 (hnod hn)⟩

theorem gupn_frame (env : Env) (uid : String) (st : SPState) :
    (get_user_principal_name env uid st).2.current_sync_users = st.current_sync_users ∧
    (get_user_principal_name env uid st).2.sync_cycles = st.sync_cycles := by
  obtain ⟨c1, c2, c3, c4⟩ := check_frame env st
  simp only [get_user_principal_name]
  split
  · rename_i e st2 heq
    rw [heq] at c1 c4
    simp at c1 c4
    simp [c1, c4]
  · rename_i u st2 heq
    rw [heq] at c1 c4
    simp at c1 c4
    split <;> simp [c1, c4]

theorem gupn_trace (env : Env) (uid : String) (st : SPState) (r : String) (st' : SPState)
    (h : get_user_principal_name env uid st = (.ok r, st')) :
    st'.http_trace = st.http_trace ++ [userLookupUrl uid] := by
  obtain ⟨c1, c2, c3, c4⟩ := check_frame env st
  simp only [get_user_principal_name] at h
  split at h
  · simp at h
  · rename_i u st2 heq
    rw [heq] at c3
    simp at c3
    split at h <;>
    · simp at h
      obtain ⟨h1, h2⟩ := h
      rw [← h2]
      simp [c3]

theorem enrich_ids (env : Env) (all : List UserPrincipal) :
    ∀ (us : List UserPrincipal) (st : SPState) (us' : List UserPrincipal) (st' : SPState),
    enrichLoop env all us st = (.ok us', st') → idsOf us' = idsOf us := by
  intro us
  induction us with
  | nil =>
    intro st us' st' h
    simp only [enrichLoop] at h
    simp at h
    rw [← h.1]
  | cons u rest ih =>
    intro st us' st' h
    simp only [enrichLoop] at h
    set stw := (if countById all u > 1 then
        log_message st ("User " ++ u.user_id ++ " is present multiple times") "warning"
      else st) with hstw
    split at h
    · split at h
      · simp at h
      · rename_i upn st2 heq
        split at h
        · simp at h
        · rename_i rest' st3 heq2
          simp at h
          obtain ⟨h1, h2⟩ := h
          rw [← h1]
          simpa [idsOf, UserPrincipal.set_email] using ih st2 rest' st3 heq2
    · split at h
      · simp at h
      · rename_i rest' st3 heq2
        simp at h
        obtain ⟨h1, h2⟩ := h
        rw [← h1]
        simpa [idsOf] using ih stw rest' st3 heq2

theorem enrich_keep (env : Env) (all : List UserPrincipal) :
    ∀ (us : List UserPrincipal) (st : SPState) (us' : List UserPrincipal) (st' : SPState),
    enrichLoop env all us st = (.ok us', st') →
    List.Forall₂ (fun u u' => u.email ≠ "" → u' = u) us us' := by
  intro us
  induction us with
  | nil =>
    intro st us' st' h
    simp only [enrichLoop] at h
    simp at h
    obtain ⟨h1, h2⟩ := h
    subst h1
    exact List.Forall₂.nil
  | cons u rest ih =>
    intro st us' st' h
    simp only [enrichLoop] at h
    set stw := (if countById all u > 1 then
        log_message st ("User " ++ u.user_id ++ " is present multiple times") "warning"
      else st) with hstw
    split at h
    · rename_i hemail
      split at h
      · simp at h
      · rename_i upn st2 heq
        split at h
        · simp at h
        · rename_i rest' st3 heq2
          simp at h
          obtain ⟨h1, h2⟩ := h
          rw [← h1]
          refine List.Forall₂.cons ?_ (ih st2 rest' st3 heq2)
          intro hne
          exact absurd (by simpa using hemail) hne
    · split at h
      · simp at h
      · rename_i rest' st3 heq2
        simp at h
        obtain ⟨h1, h2⟩ := h
        rw [← h1]
        exact List.Forall₂.cons (fun _ => rfl) (ih stw rest' st3 heq2)

theorem enrich_trace (env : Env) (all : List UserPrincipal) :
    ∀ (us : List UserPrincipal) (st : SPState) (us' : List UserPrincipal) (st' : SPState),
    enrichLoop env all us st = (.ok us', st') →
    st'.http_trace = st.http_trace ++
      (us.filter (fun u => u.email == "")).map (fun u => userLookupUrl u.user_id) := by
  intro us
  induction us with
  | nil =>
    intro st us' st' h
    simp only [enrichLoop] at h
    simp at h
    rw [← h.2]
    simp
  | cons u rest ih =>
    intro st us' st' h
    simp only [enrichLoop] at h
    set stw := (if countById all u > 1 then
        log_message st ("User " ++ u.user_id ++ " is present multiple times") "warning"
      else st) with hstw
    have hwt : stw.http_trace = st.http_trace := by
      rw [hstw]
      split <;> simp
    split at h
    · rename_i hemail
      split at h
      · simp at h
      · rename_i upn st2 heq
        split at h
        · simp at h
        · rename_i rest' st3 heq2
          simp at h
          obtain ⟨h1, h2⟩ := h
          have ht2 := gupn_trace env u.user_id stw upn st2 heq
          have ht3 := ih st2 rest' st3 heq2
          rw [← h2, ht3, ht2, hwt]
          simp [List.filter_cons, hemail, List.append_assoc]
    · rename_i hemail
      split at h
      · simp at h
      · rename_i rest' st3 heq2
        simp at h
        obtain ⟨h1, h2⟩ := h
        have ht3 := ih stw rest' st3 heq2
        rw [← h2, ht3, hwt]
        simp [List.filter_cons, hemail]

theorem enrich_cycles (env : Env) (all : List UserPrincipal) :
    ∀ (us : List UserPrincipal) (st : SPState),
    (enrichLoop env all us st).2.sync_cycles = st.sync_cycles := by
  intro us
  induction us with
  | nil => intro st; rfl
  | cons u rest ih =>
    intro st
    simp only [enrichLoop]
    set stw := (if countById all u > 1 then
        log_message st ("User " ++ u.user_id ++ " is present multiple times") "warning"
      else st) with hstw
    have hwc : stw.sync_cycles = st.sync_cycles := by
      rw [hstw]
      split <;> simp
    split
    · have hg := (gupn_frame env u.user_id stw).2
      split
      · rename_i e st2 heq
        rw [heq] at hg
        simp at hg
        simp [hg, hwc]
      · rename_i upn st2 heq
        rw [heq] at hg
        simp at hg
        have hr := ih st2
        split
        · rename_i e st3 heq2
          rw [heq2] at hr
          simp at hr
          simp [hr, hg, hwc]
        · rename_i rest' st3 heq2
          rw [heq2] at hr
          simp at hr
          simp [hr, hg, hwc]
    · have hr := ih stw
      split
      · rename_i e st3 heq2
        rw [heq2] at hr
        simp at hr
        simp [hr, hwc]
      · rename_i rest' st3 heq2
        rw [heq2] at hr
        simp at hr
        simp [hr, hwc]

theorem sync_cycles_inc (env : Env) (st : SPState) :
    (sync_service_principal env st).2.sync_cycles = st.sync_cycles + 1 := by
  simp only [sync_service_principal]
  obtain ⟨g1, g2⟩ := gsp_frame env
    (log_message { st with sync_cycles := st.sync_cycles + 1 } "Syncing service principal" "info")
  split
  · rename_i e st2 heq
    rw [heq] at g2
    simp at g2
    simpa using g2
  · rename_i st2 heq
    rw [heq] at g2
    simp at g2
    simpa using g2
  · rename_i spid st2 heq
    rw [heq] at g2
    simp at g2
    obtain ⟨a1, a2⟩ := gag_frame env st2
    split
    · rename_i e st3 heq2
      rw [heq2] at a2
      simp at a2
      simp [a2, g2]
    · rename_i groups st3 heq2
      rw [heq2] at a2
      simp at a2
      have hau := gau_cycles env st3
      split
      · rename_i e st4 heq3
        rw [heq3] at hau
        simp at hau
        simp [hau, a2, g2]
      · rename_i uv st4 heq3
        rw [heq3] at hau
        simp at hau
        have hex := exp_cycles env groups uv st4
        split
        · rename_i e st5 heq4
          rw [heq4] at hex
          simp at hex
          simp [hex, hau, a2, g2]
        · rename_i uv2 st5 heq4
          rw [heq4] at hex
          simp at hex
          have hen := enrich_cycles env (uv2.list st5) (uv2.list st5) st5
          split
          · rename_i e st6 heq5
            rw [heq5] at hen
            simp at hen
            simp [hen, hex, hau, a2, g2]
          · rename_i users st6 heq5
            rw [heq5] at hen
            simp at hen
            split <;> simp [hen, hex, hau, a2, g2]

theorem permfold_out (roles : List AppRole) :
    ∀ (acc : List PrincipalPermissions) (st : SPState),
    (roles.foldl permRoleStep (acc, st)).1 = acc ++ roles.map (fun r =>
      { id := r.id, description := r.description, display_name := r.displayName,
        is_enabled := true, permissions_value := r.value }) := by
  induction roles with
  | nil => intro acc st; simp
  | cons r rest ih =>
    intro acc st
    rw [List.foldl_cons]
    simp only [permRoleStep]
    rw [ih]
    simp

theorem permfold_cycles (roles : List AppRole) :
    ∀ (acc : List PrincipalPermissions) (st : SPState),
    (roles.foldl permRoleStep (acc, st)).2.sync_cycles = st.sync_cycles := by
  induction roles with
  | nil => intro acc st; rfl
  | cons r rest ih =>
    intro acc st
    rw [List.foldl_cons]
    simp only [permRoleStep]
    rw [ih]
    simp

theorem gsp_spid_mono (env : Env) (st : SPState) (i : String)
    (hi : st.service_principal_id = some i) :
    (get_service_principal env st).2.service_principal_id = some i := by
  rw [gsp_cached env st i hi]
  have := (check_frame env st).2.1
  rw [this, hi]

theorem gag_spid (env : Env) (st : SPState) (i : String)
    (hi : st.service_principal_id = some i) :
    (get_assigned_groups env st).2.service_principal_id = some i := by
  obtain ⟨c1, c2, c3, c4⟩ := check_frame env st
  simp only [get_assigned_groups]
  split
  · rename_i e st2 heq
    rw [heq] at c2
    simp at c2
    simp [c2, hi]
  · rename_i u st2 heq
    rw [heq] at c2
    simp at c2
    have hmono := gsp_spid_mono env st2 i (by rw [c2, hi])
    split
    · rename_i e st3 heq2
      rw [heq2] at hmono
      simpa using hmono
    · rename_i st3 heq2
      rw [heq2] at hmono
      simpa using hmono
    · rename_i spid st3 heq2
      rw [heq2] at hmono
      simp at hmono
      split <;> simp [hmono]

theorem gap_cycles (env : Env) (st : SPState) :
    (get_assigned_permissions env st).2.sync_cycles = st.sync_cycles := by
  obtain ⟨c1, c2, c3, c4⟩ := check_frame env st
  simp only [get_assigned_permissions]
  split
  · rename_i e st2 heq
    rw [heq] at c4
    simp at c4
    simp [c4]
  · rename_i u st2 heq
    rw [heq] at c4
    simp at c4
    obtain ⟨g1, g2⟩ := gsp_frame env st2
    split
    · rename_i e st3 heq2
      rw [heq2] at g2
      simp at g2
      simp [g2, c4]
    · rename_i st3 heq2
      rw [heq2] at g2
      simp at g2
      simp [g2, c4]
    · rename_i spid st3 heq2
      rw [heq2] at g2
      simp at g2
      split
      · simp [g2, c4]
      · rename_i app_roles heq3
        split
        · simp [g2, c4]
        · have hpc := permfold_cycles app_roles []
            (requests_get (log_message st3
                ("Getting permissions assigned to service principal: " ++ spid) "info")
              ("https://graph.microsoft.com/v1.0/servicePrincipals/" ++ spid))
          rw [hpc]
          simp [g2, c4]

theorem sync_nodup (env : Env) (st : SPState) (users : List UserPrincipal) (st' : SPState)
    (h : sync_service_principal env st = (.ok (some users), st')) :
    (idsOf users).Nodup := by
  simp only [sync_service_principal] at h
  split at h
  · simp at h
  · simp at h
  · rename_i spid st2 heq
    split at h
    · simp at h
    · rename_i groups st3 heq2
      split at h
      · simp at h
      · rename_i uv st4 heq3
        split at h
        · simp at h
        · rename_i uv2 st5 heq4
          split at h
          · simp at h
          · rename_i users2 st6 heq5
            obtain ⟨huv2, hpres⟩ := exp_shape env groups uv st4 uv2 st5 heq4
            have hids := enrich_ids env (uv2.list st5) (uv2.list st5) st5 users2 st6 heq5
            have husers2 : users2 = users := by
              split at h <;>
              · simp at h
                exact h.1
            have hn5 : (idsOf (uv2.list st5)).Nodup := by
              rcases gau_shape env st3 uv st4 heq3 with ⟨huv0, hcur⟩ | ⟨l, hl, huv0, hcur⟩
              · rw [huv2, huv0]
                simp [UsersView.list, idsOf]
              · rw [huv2, huv0]
                simp only [UsersView.list]
                apply hpres
                rw [hcur]
                exact foldl_assignUserStep_nodup l [] (by simp [idsOf])
            rw [← husers2, hids]
            exact hn5

theorem sync_shared_result (env : Env) (st : SPState) (l : List AppRoleAssignment)
    (users : List UserPrincipal) (st' : SPState)
    (hl : env.assignments_for_users = .ok l)
    (h : sync_service_principal env st = (.ok (some users), st')) :
    users = st'.current_sync_users := by
  simp only [sync_service_principal] at h
  split at h
  · simp at h
  · simp at h
  · rename_i spid st2 heq
    have hspid2 : st2.service_principal_id = some spid :=
      gsp_ok_some_spid env _ spid st2 heq
    split at h
    · simp at h
    · rename_i groups st3 heq2
      have hspid3 : st3.service_principal_id = some spid := by
        have hx := gag_spid env st2 spid hspid2
        rw [heq2] at hx
        simpa using hx
      split at h
      · simp at h
      · rename_i uv st4 heq3
        obtain ⟨huv, hcur4⟩ := gau_shared env st3 l spid uv st4 hl hspid3 heq3
        split at h
        · simp at h
        · rename_i uv2 st5 heq4
          obtain ⟨huv2, hpres⟩ := exp_shape env groups uv st4 uv2 st5 heq4
          subst huv2
          subst huv
          split at h
          · simp at h
          · rename_i users2 st6 heq5
            simp at h
            obtain ⟨h1, h2⟩ := h
            rw [← h2]
            simp [h1]

theorem sync_sep_result (env : Env) (st : SPState) (msg : String)
    (users : List UserPrincipal) (st' : SPState)
    (hl : env.assignments_for_users = .httpError msg)
    (h : sync_service_principal env st = (.ok (some users), st')) :
    users = [] := by
  simp only [sync_service_principal] at h
  split at h
  · simp at h
  · simp at h
  · rename_i spid st2 heq
    split at h
    · simp at h
    · rename_i groups st3 heq2
      split at h
      · simp at h
      · rename_i uv st4 heq3
        rcases gau_shape env st3 uv st4 heq3 with ⟨huv0, hcur⟩ | ⟨l, hl2, huv0, hcur⟩
        · split at h
          · simp at h
          · rename_i uv2 st5 heq4
            obtain ⟨huv2, hpres⟩ := exp_shape env groups uv st4 uv2 st5 heq4
            subst huv2
            subst huv0
            simp only [UsersView.list, enrichLoop] at h
            simp at h
            exact h.1
        · rw [hl] at hl2
          simp at hl2

theorem gsp_not_found (env : Env) (st : SPState) (t : String) (e : Nat)
    (h1 : st.access_token = some t) (h2 : st.access_token_expiry = some e)
    (hv : env.now < e) (hspid : st.service_principal_id = none)
    (hresp : (∃ msg, env.sp_filter_response = .httpError msg) ∨
      env.sp_filter_response = .ok []) :
    ∃ st2, get_service_principal env st = (.ok none, st2) := by
  simp only [get_service_principal]
  rw [check_ok_of_valid env st t e h1 h2 hv]
  rcases hresp with ⟨msg, hr⟩ | hr <;>
    simp [hspid, hr]

theorem sync_abandons (env : Env) (st : SPState) (t : String) (e : Nat)
    (h1 : st.access_token = some t) (h2 : st.access_token_expiry = some e)
    (hv : env.now < e) (hspid : st.service_principal_id = none)
    (hresp : (∃ msg, env.sp_filter_response = .httpError msg) ∨
      env.sp_filter_response = .ok []) :
    (sync_service_principal env st).1 = .ok none ∧
    ({ message := "Service principal not found", level := "error" } : LogEntry) ∈
      (sync_service_principal env st).2.log := by
  simp only [sync_service_principal]
  obtain ⟨st2, hgsp⟩ := gsp_not_found env
    (log_message { st with sync_cycles := st.sync_cycles + 1 } "Syncing service principal" "info")
    t e (by simp [h1]) (by simp [h2]) hv (by simp [hspid]) hresp
  rw [hgsp]
  simp

theorem check_fails_invalid (env : Env) (st : SPState)
    (hfail : env.acquire_result = none) (hnone : st.access_token = none) :
    (check_access_token env st).1 = .error { message := "Access token is invalid" } := by
  simp only [check_access_token]
  rw [if_neg (by simp [tokenIsValid, hnone])]
  have hf := (get_access_token_fail_frame env
    (log_message (log_message st ("Access token check requested at: " ++ toString env.now) "debug")
      "Access token is invalid" "debug") hfail).1
  rw [if_pos (by rw [hf]; simp [hnone])]

theorem sync_fails_invalid (env : Env) (st : SPState)
    (hfail : env.acquire_result = none) (hnone : st.access_token = none) :
    (sync_service_principal env st).1 = .error { message := "Access token is invalid" } ∧
    (sync_service_principal env st).2.http_trace = st.http_trace := by
  simp only [sync_service_principal]
  set st1 := log_message { st with sync_cycles := st.sync_cycles + 1 }
    "Syncing service principal" "info" with hst1
  have hc1 : (check_access_token env st1).1 =
      .error { message := "Access token is invalid" } :=
    check_fails_invalid env st1 hfail (by rw [hst1]; simp [hnone])
  have hpair : check_access_token env st1 =
      ((check_access_token env st1).1, (check_access_token env st1).2) := rfl
  rw [hc1] at hpair
  have hg : get_service_principal env st1 =
      (.error { message := "Access token is invalid" }, (check_access_token env st1).2) := by
    simp only [get_service_principal]
    rw [hpair]
  rw [hg]
  refine ⟨rfl, ?_⟩
  have ht := (check_frame env st1).2.2.1
  simp only [ht, hst1]
  simp

theorem gap_ok_enabled (env : Env) (st : SPState) (perms : List PrincipalPermissions)
    (st' : SPState) (h : get_assigned_permissions env st = (.ok perms, st')) :
    ∀ p ∈ perms, p.is_enabled = true := by
  simp only [get_assigned_permissions] at h
  split at h
  · simp at h
  · rename_i u st2 heq
    split at h
    · simp at h
    · simp at h
      obtain ⟨h1, h2⟩ := h
      subst h1
      intro p hp
      simp at hp
    · rename_i spid st3 heq2
      split at h
      · simp at h
        obtain ⟨h1, h2⟩ := h
        subst h1
        intro p hp
        simp at hp
      · rename_i app_roles heq3
        split at h
        · simp at h
          obtain ⟨h1, h2⟩ := h
          subst h1
          intro p hp
          simp at hp
        · simp at h
          obtain ⟨h1, h2⟩ := h
          have hout := permfold_out app_roles []
            (requests_get (log_message st3
                ("Getting permissions assigned to service principal: " ++ spid) "info")
              ("https://graph.microsoft.com/v1.0/servicePrincipals/" ++ spid))
          rw [hout] at h1
          subst h1
          intro p hp
          simp at hp
          obtain ⟨r, hr, hpr⟩ := hp
          rw [← hpr]

theorem gap_roles (env : Env) (st : SPState) (i : String) (roles : List AppRole)
    (perms : List PrincipalPermissions) (st' : SPState)
    (hi : st.service_principal_id = some i)
    (hroles : env.sp_record_app_roles = .ok roles)
    (h : get_assigned_permissions env st = (.ok perms, st')) :
    perms = roles.map (fun r =>
      { id := r.id, description := r.description, display_name := r.displayName,
        is_enabled := true, permissions_value := r.value }) := by
  simp only [get_assigned_permissions] at h
  split at h
  · simp at h
  · rename_i u st2 heq
    have hc2 := (check_frame env st).2.1
    rw [heq] at hc2
    simp at hc2
    have hgc := gsp_cached env st2 i (by rw [hc2, hi])
    split at h
    · simp at h
    · rename_i st3 heq2
      rw [hgc] at heq2
      rcases hck : (check_access_token env st2).1 with e2 | u2 <;>
        rw [hck] at heq2 <;> simp [Except.map] at heq2
    · rename_i spid st3 heq2
      split at h
      · rename_i e heq3
        rw [hroles] at heq3
        simp at heq3
      · rename_i app_roles heq3
        rw [hroles] at heq3
        simp at heq3
        subst heq3
        split at h
        · simp at h
          obtain ⟨h1, h2⟩ := h
          subst h1
          simp
        · simp at h
          obtain ⟨h1, h2⟩ := h
          have hout := permfold_out roles []
            (requests_get (log_message st3
                ("Getting permissions assigned to service principal: " ++ spid) "info")
              ("https://graph.microsoft.com/v1.0/servicePrincipals/" ++ spid))
          rw [hout] at h1
          rw [← h1]
          simp

theorem manual_once (env : Env) (cbs : Callbacks) (st : SPState) (out : ManualSyncOut)
    (st' : SPState) (h : manual_sync_service_principal env cbs st = (.ok out, st')) :
    st'.sync_cycles = st.sync_cycles + 1 ∧
    ∃ users, out.user_cb_arg = (if cbs.user_callback then some users else none) ∧
      out.users_ret = (if cbs.user_callback then none else users) := by
  simp only [manual_sync_service_principal] at h
  split at h
  · simp at h
  · rename_i users st2 heq
    have hsy := sync_cycles_inc env
      (log_message st "Manual sync of service principal requested" "info")
    rw [heq] at hsy
    simp at hsy
    split at h
    · simp at h
    · rename_i gca st3 heq2
      have h3 : st3.sync_cycles = st2.sync_cycles := by
        split at heq2
        · split at heq2
          · simp at heq2
          · rename_i groups st4 heq3
            have hgc := (gag_frame env st2).2
            rw [heq3] at hgc
            simp at hgc
            simp at heq2
            obtain ⟨hg, hst⟩ := heq2
            rw [← hst]
            exact hgc
        · simp at heq2
          obtain ⟨hg, hst⟩ := heq2
          rw [← hst]
      split at h
      · simp at h
      · rename_i pca st4 heq4
        have h4 : st4.sync_cycles = st3.sync_cycles := by
          split at heq4
          · split at heq4
            · simp at heq4
            · rename_i perms st5 heq5
              have hpc := gap_cycles env st3
              rw [heq5] at hpc
              simp at hpc
              simp at heq4
              obtain ⟨hg, hst⟩ := heq4
              rw [← hst]
              exact hpc
          · simp at heq4
            obtain ⟨hg, hst⟩ := heq4
            rw [← hst]
        simp at h
        obtain ⟨h1, h2⟩ := h
        subst h2
        constructor
        · rw [h4, h3, hsy]
        · refine ⟨users, ?_, ?_⟩ <;> rw [← h1]

/-- A state whose cached token is still valid at small clock values. -/
def stValid : SPState :=
  { initState with access_token := some "tok", access_token_expiry := some 100 }

/-- A state holding a stale token (expiry 5, checked at clock 10). -/
def stStale : SPState :=
  { initState with access_token := some "old", access_token_expiry := some 5 }

/-- A demonstration directory: one service principal, one assigned group `g1`
(permission `pg`) whose sole member is `u1`, and two direct user assignments
`u1` (permission `pd`, observed first) and `u2` (permission `p2`). -/
def envDemo : Env :=
  { now := 1, client_app_id := "app",
    acquire_result := some ("tok2", 50),
    acquire_failure_detail := "acquire failed: invalid_client",
    sp_filter_response := .ok [{ id := "sp1", displayName := "App SP" }],
    assignments_for_groups := .ok [⟨"g1", "Group One", "Group", "pg"⟩],
    assignments_for_users := .ok [⟨"u1", "User One", "User", "pd"⟩, ⟨"u2", "User Two", "User", "p2"⟩],
    sp_record_app_roles := .ok [⟨"r1", some "d", "Role", "role.v"⟩],
    group_members := fun gid => if gid == "g1" then
        .ok [{ id := "u1", displayName := "User One", userPrincipalName := "u1@x" }]
      else .ok [],
    user_lookup := fun uid => .ok (uid ++ "@x") }

/-- `envDemo` at clock 10 with failing token issuance. -/
def envFail : Env :=
  { envDemo with now := 10, acquire_result := none }

/-- `envDemo` whose service-principal filter query matches nothing. -/
def envNoSP : Env :=
  { envDemo with sp_filter_response := .ok [] }

/-- `stValid` with the service principal id already cached. -/
def stCached : SPState :=
  { stValid with service_principal_id := some "sp1" }

/-- The user set `sync_service_principal` produces on `envDemo` from
`stValid`: `u1` was observed first (directly), then again as a member of
`g1`, which moved it to the end with both permission ids and unchanged
source `"Directly"`. -/
def usersC1 : List UserPrincipal :=
  [{ user_id := "u2", email := "u2@x", name := "User Two", source := "Directly",
     permissions := ["p2"] },
   { user_id := "u1", email := "u1@x", name := "User One", source := "Directly",
     permissions := ["pd", "pg"] }]

/-- The user-id column of a successful sync result. -/
def syncUserIds (env : Env) (st : SPState) : Option (List String) :=
  match sync_service_principal env st with
  | (.ok (some us), _) => some (us.map fun u => u.user_id)
  | _ => none

/-- C1: for every sync cycle, the returned user sequence contains no two
`UserPrincipal` entries with the same user id — the per-user-id upsert of
`get_assigned_users` and `get_users_assigned_to_group` keeps the working
list's id column duplicate-free, and the enrichment pass preserves ids. -/
theorem C1_sync_user_ids_unique (env : Env) (st : SPState)
    (users : List UserPrincipal) (st' : SPState)
    (h : sync_service_principal env st = (.ok (some users), st')) :
    (users.map fun u => u.user_id).Nodup := by
  have hx := sync_nodup env st users st' h
  simpa [idsOf] using hx

/-- C1 witness: on `envDemo` the same user `u1` is a direct assignment and a
member of group `g1`; the cycle returns exactly one entry for `u1`, carrying
both permission ids `pd` and `pg`, with source `"Directly"` (see `usersC1`),
and the id column is duplicate-free. -/
theorem C1_sync_user_ids_unique_witness :
    (sync_service_principal envDemo stValid).1 = .ok (some usersC1) ∧
    (usersC1.map fun u => u.user_id).Nodup := by
  have hfst : (sync_service_principal envDemo stValid).1 = .ok (some usersC1) := by decide
  refine ⟨hfst, ?_⟩
  have hpair : sync_service_principal envDemo stValid =
      (.ok (some usersC1), (sync_service_principal envDemo stValid).2) := by
    rw [← hfst]
  exact C1_sync_user_ids_unique envDemo stValid usersC1 _ hpair

/-- C2 counterexample: token issuance fails (`acquire_result = none`) while a
stale token is stored; `check_access_token` leaves the stored token and
expiry unchanged but returns `ok` instead of failing with `InvalidToken`,
because the raise at line 64 fires only when the stored token is `None`. -/
theorem C2_counterexample :
    envFail.acquire_result = none ∧
    stStale.access_token = some "old" ∧
    tokenIsValid stStale envFail.now = false ∧
    (check_access_token envFail stStale).1 = .ok () ∧
    (check_access_token envFail stStale).2.access_token = some "old" ∧
    (check_access_token envFail stStale).2.access_token_expiry = some 5 := by
  decide

/-- C2 amended: when token issuance fails, the stored token and expiry are
always left unchanged; the check fails with `InvalidToken` — and a `sync()`
so started raises `InvalidToken` before any directory query — exactly when
no token is stored at all (a stale stored token instead survives and the
check returns without raising). -/
theorem C2_amended_token_failure :
    (∀ env st, env.acquire_result = none →
      (check_access_token env st).2.access_token = st.access_token ∧
      (check_access_token env st).2.access_token_expiry = st.access_token_expiry) ∧
    (∀ env st, env.acquire_result = none → st.access_token = none →
      (check_access_token env st).1 = .error { message := "Access token is invalid" }) ∧
    (∀ env st, env.acquire_result = none → st.access_token = none →
      (sync_service_principal env st).1 = .error { message := "Access token is invalid" } ∧
      (sync_service_principal env st).2.http_trace = st.http_trace) :=
  ⟨fun env st hf => check_fail_frame env st hf,
   fun env st hf hn => check_fails_invalid env st hf hn,
   fun env st hf hn => sync_fails_invalid env st hf hn⟩

/-- C2 amended witness: from the fresh state, failing issuance makes `sync`
raise `InvalidToken` with no directory query issued. -/
theorem C2_amended_token_failure_witness :
    envFail.acquire_result = none ∧ initState.access_token = none ∧
    (sync_service_principal envFail initState).1 =
      .error { message := "Access token is invalid" } ∧
    (sync_service_principal envFail initState).2.http_trace = initState.http_trace :=
  ⟨rfl, rfl, (C2_amended_token_failure.2.2 envFail initState rfl rfl).1,
   (C2_amended_token_failure.2.2 envFail initState rfl rfl).2⟩

/-- C3 counterexample: when the identity filter matches nothing the cycle
completes with the Python value `None` (`Option.none`), not an empty result
list. -/
theorem C3_counterexample :
    syncValue envNoSP stValid = some none ∧
    syncValue envNoSP stValid ≠ some (some ([] : List UserPrincipal)) := by
  decide

/-- C3 amended: when the service identity cannot be resolved (no cached id
and the filter query errors or matches nothing), `sync_service_principal`
abandons the cycle and returns `None` — not an empty list — logging
"Service principal not found" at error level rather than raising. -/
theorem C3_amended_unresolved_identity (env : Env) (st : SPState) (t : String) (e : Nat)
    (h1 : st.access_token = some t) (h2 : st.access_token_expiry = some e)
    (hv : env.now < e) (hspid : st.service_principal_id = none)
    (hresp : (∃ msg, env.sp_filter_response = .httpError msg) ∨
      env.sp_filter_response = .ok []) :
    (sync_service_principal env st).1 = .ok none ∧
    ({ message := "Service principal not found", level := "error" } : LogEntry) ∈
      (sync_service_principal env st).2.log :=
  sync_abandons env st t e h1 h2 hv hspid hresp

/-- C3 amended witness: concrete empty filter response. -/
theorem C3_amended_unresolved_identity_witness :
    envNoSP.sp_filter_response = .ok [] ∧
    (sync_service_principal envNoSP stValid).1 = .ok none ∧
    ({ message := "Service principal not found", level := "error" } : LogEntry) ∈
      (sync_service_principal envNoSP stValid).2.log := by
  refine ⟨rfl, ?_⟩
  exact C3_amended_unresolved_identity envNoSP stValid "tok" 100 rfl rfl (by decide) rfl
    (Or.inr rfl)

/-- C4: with a stored token whose expiry is strictly later than the clock,
`check_access_token` returns `ok`, leaves token, expiry and the acquire-call
count unchanged; two consecutive such calls issue zero refresh calls. -/
theorem C4_valid_token_no_refresh (env₁ env₂ : Env) (st : SPState) (t : String) (e : Nat)
    (h1 : st.access_token = some t) (h2 : st.access_token_expiry = some e)
    (hv1 : env₁.now < e) (hv2 : env₂.now < e) :
    ∃ st₁ st₂,
      check_access_token env₁ st = (.ok (), st₁) ∧
      st₁.access_token = some t ∧ st₁.access_token_expiry = some e ∧
      st₁.acquire_calls = st.acquire_calls ∧
      check_access_token env₂ st₁ = (.ok (), st₂) ∧
      st₂.access_token = some t ∧ st₂.access_token_expiry = some e ∧
      st₂.acquire_calls = st.acquire_calls := by
  refine ⟨_, _, check_ok_of_valid env₁ st t e h1 h2 hv1, by simp [h1], by simp [h2], by simp,
    check_ok_of_valid env₂ _ t e (by simp [h1]) (by simp [h2]) hv2,
    by simp [h1], by simp [h2], by simp⟩

/-- C4 witness: two consecutive checks on `stValid` at clock 1. -/
theorem C4_valid_token_no_refresh_witness :
    ∃ st₁ st₂,
      check_access_token envDemo stValid = (.ok (), st₁) ∧
      st₁.access_token = some "tok" ∧ st₁.access_token_expiry = some 100 ∧
      st₁.acquire_calls = stValid.acquire_calls ∧
      check_access_token envDemo st₁ = (.ok (), st₂) ∧
      st₂.access_token = some "tok" ∧ st₂.access_token_expiry = some 100 ∧
      st₂.acquire_calls = stValid.acquire_calls :=
  C4_valid_token_no_refresh envDemo envDemo stValid "tok" 100 rfl rfl (by decide) (by decide)

/-- C5 counterexample: the direct fetch observes `u1` before `u2`, but the
cycle's result sequence is `u2` then `u1`: the group-membership write moved
`u1`'s entry to the end (remove-then-reappend), so the merged sequence is
not in first-observation insertion order. -/
theorem C5_counterexample :
    envDemo.assignments_for_users =
      .ok [⟨"u1", "User One", "User", "pd"⟩, ⟨"u2", "User Two", "User", "p2"⟩] ∧
    syncUserIds envDemo stValid = some ["u2", "u1"] ∧
    some ["u2", "u1"] ≠ some ["u1", "u2"] := by
  refine ⟨rfl, by decide, by decide⟩

/-- C5 amended: the merged sequence is in order of the most recent
observation, not the first: every processed observation (direct assignment
of principal type `"User"`, or group member) places the observed user's
entry at the end of the working sequence, removing any earlier entry with
the same id. -/
theorem C5_amended_last_observation_order :
    (∀ (users : List UserPrincipal) (p : AppRoleAssignment),
      p.principalType = "User" →
      ∃ u, assignUserStep users p =
        users.eraseP (fun x => x.user_id == p.principalId) ++ [u] ∧
        u.user_id = p.principalId) ∧
    (∀ (users : List UserPrincipal) (g : GroupPrincipal) (m : GroupMember),
      ∃ u, groupMemberStep g users m =
        users.eraseP (fun x => x.user_id == m.id) ++ [u] ∧ u.user_id = m.id) := by
  constructor
  · intro users p hp
    unfold assignUserStep
    rw [if_pos (by simp [hp])]
    exact upsertUser_shape users p.principalId _ p.appRoleId rfl
  · intro users g m
    exact upsertUser_shape users m.id _ g.permissions_id rfl

/-- C5 amended witness: a fresh direct observation lands at the end. -/
theorem C5_amended_last_observation_order_witness :
    ∃ u, assignUserStep usersC1 ⟨"u1", "User One", "User", "pd"⟩ =
      usersC1.eraseP (fun x => x.user_id == "u1") ++ [u] ∧ u.user_id = "u1" :=
  C5_amended_last_observation_order.1 usersC1 ⟨"u1", "User One", "User", "pd"⟩ rfl

/-- C6: for a user id already present, a later writer (subsequent direct
assignment or group-membership observation) only appends a permission id —
the entry keeps its `source`, `name` and `email` (the rewritten entry is
`{ u with permissions := u.permissions ++ [id] }`); and a user found in two
groups accumulates both groups' permission ids in processing order. -/
theorem C6_later_writer_appends :
    (∀ (users : List UserPrincipal) (u : UserPrincipal) (p : AppRoleAssignment),
      (users.map fun x => x.user_id).Nodup → u ∈ users → u.user_id = p.principalId →
      p.principalType = "User" →
      assignUserStep users p =
        users.eraseP (fun x => x.user_id == p.principalId) ++
          [{ u with permissions := u.permissions ++ [p.appRoleId] }]) ∧
    (∀ (users : List UserPrincipal) (u : UserPrincipal) (g : GroupPrincipal)
        (m : GroupMember),
      (users.map fun x => x.user_id).Nodup → u ∈ users → u.user_id = m.id →
      groupMemberStep g users m =
        users.eraseP (fun x => x.user_id == m.id) ++
          [{ u with permissions := u.permissions ++ [g.permissions_id] }]) ∧
    (∀ (users : List UserPrincipal) (uid : String) (u : UserPrincipal)
        (g₁ g₂ : GroupPrincipal) (ms₁ ms₂ : List GroupMember),
      (users.map fun x => x.user_id).Nodup →
      users.find? (fun x => x.user_id == uid) = some u →
      ((ms₂.foldl (groupMemberStep g₂) (ms₁.foldl (groupMemberStep g₁) users)).find?
          (fun x => x.user_id == uid)) =
        some { u with permissions := u.permissions ++
          (ms₁.filter (fun m => m.id == uid)).map (fun _ => g₁.permissions_id) ++
          (ms₂.filter (fun m => m.id == uid)).map (fun _ => g₂.permissions_id) }) := by
  refine ⟨?_, ?_, ?_⟩
  · intro users u p hn hu hid hp
    unfold assignUserStep
    rw [if_pos (by simp [hp])]
    exact upsertUser_update users p.principalId _ p.appRoleId u (by simpa [idsOf] using hn)
      hu hid
  · intro users u g m hn hu hid
    exact upsertUser_update users m.id _ g.permissions_id u (by simpa [idsOf] using hn) hu hid
  · intro users uid u g₁ g₂ ms₁ ms₂ hn hf
    have h1 := foldl_groupMemberStep_find? g₁ ms₁ users uid u (by simpa [idsOf] using hn) hf
    have hn1 : (idsOf (ms₁.foldl (groupMemberStep g₁) users)).Nodup :=
      foldl_groupMemberStep_nodup g₁ ms₁ users (by simpa [idsOf] using hn)
    have h2 := foldl_groupMemberStep_find? g₂ ms₂ _ uid _ hn1 h1
    rw [h2]

/-- The working list, groups and member lists of the C6 witness. -/
def usersW : List UserPrincipal :=
  [{ user_id := "u1", email := "", name := "User One", source := "Directly",
     permissions := ["pd"] }]

/-- First witness group. -/
def g1W : GroupPrincipal := ⟨some "g1", "Group One", "pg1"⟩

/-- Second witness group. -/
def g2W : GroupPrincipal := ⟨some "g2", "Group Two", "pg2"⟩

/-- Member list of the first witness group. -/
def ms1W : List GroupMember := [⟨"u1", "User One", "u1@x"⟩]

/-- Member list of the second witness group. -/
def ms2W : List GroupMember := [⟨"u1", "User One", "u1@x"⟩]

/-- C6 witness: `u1`, present directly with `pd`, is found in both witness
groups and ends with permissions `[pd, pg1, pg2]` — source, name and email
unchanged. -/
theorem C6_later_writer_appends_witness :
    (usersW.map fun x => x.user_id).Nodup ∧
    ((ms2W.foldl (groupMemberStep g2W) (ms1W.foldl (groupMemberStep g1W) usersW)).find?
        (fun x => x.user_id == "u1")) =
      some { user_id := "u1", email := "", name := "User One", source := "Directly",
             permissions := ["pd", "pg1", "pg2"] } := by
  refine ⟨by decide, ?_⟩
  have hx := C6_later_writer_appends.2.2 usersW "u1"
    { user_id := "u1", email := "", name := "User One", source := "Directly",
      permissions := ["pd"] } g1W g2W ms1W ms2W (by decide) (by decide)
  exact hx

/-- C7: the enrichment pass (lines 359-365 of sync, embedded as
`enrichLoop`) issues exactly one per-user directory lookup for each user
whose email is the empty string — the HTTP trace grows by exactly those
lookup URLs, in order — and leaves every entry with a populated email
untouched. -/
theorem C7_enrichment_exact (env : Env) (all us : List UserPrincipal) (st : SPState)
    (us' : List UserPrincipal) (st' : SPState)
    (h : enrichLoop env all us st = (.ok us', st')) :
    st'.http_trace = st.http_trace ++
      (us.filter (fun u => u.email == "")).map (fun u => userLookupUrl u.user_id) ∧
    List.Forall₂ (fun u u' => u.email ≠ "" → u' = u) us us' :=
  ⟨enrich_trace env all us st us' st' h, enrich_keep env all us st us' st' h⟩

/-- Input of the C7 witness: `u1` without email, `u2` already populated. -/
def usW : List UserPrincipal :=
  [{ user_id := "u1", email := "", name := "User One", source := "Directly",
     permissions := ["pd"] },
   { user_id := "u2", email := "u2@x", name := "User Two", source := "Group One",
     permissions := ["pg"] }]

/-- Output of the C7 witness: only `u1` gained an email. -/
def usWE : List UserPrincipal :=
  [{ user_id := "u1", email := "u1@x", name := "User One", source := "Directly",
     permissions := ["pd"] },
   { user_id := "u2", email := "u2@x", name := "User Two", source := "Group One",
     permissions := ["pg"] }]

/-- C7 witness: only `u1` (empty email) is looked up; `u2` is not re-queried
and keeps its email. -/
theorem C7_enrichment_exact_witness :
    (enrichLoop envDemo usW usW stValid).1 = .ok usWE ∧
    (enrichLoop envDemo usW usW stValid).2.http_trace =
      stValid.http_trace ++ [userLookupUrl "u1"] ∧
    List.Forall₂ (fun u u' => u.email ≠ "" → u' = u) usW usWE := by
  have hfst : (enrichLoop envDemo usW usW stValid).1 = .ok usWE := by decide
  have hpair : enrichLoop envDemo usW usW stValid =
      (.ok usWE, (enrichLoop envDemo usW usW stValid).2) := by
    rw [← hfst]
  obtain ⟨ht, hk⟩ := C7_enrichment_exact envDemo usW usW stValid usWE _ hpair
  refine ⟨hfst, ?_, hk⟩
  rw [ht]
  decide

/-- C8: every `PrincipalPermissions` returned by `get_assigned_permissions`
has `is_enabled = true` (the constructor at lines 204-210 always passes
`True`, irrespective of any prior `disable()` on locally held objects), and
on a successful fetch the call returns exactly one permission per app-role
definition of the directory record. -/
theorem C8_permissions_always_enabled :
    (∀ (env : Env) (st : SPState) (perms : List PrincipalPermissions) (st' : SPState),
      get_assigned_permissions env st = (.ok perms, st') →
      ∀ p ∈ perms, p.is_enabled = true) ∧
    (∀ (env : Env) (st : SPState) (i : String) (roles : List AppRole)
        (perms : List PrincipalPermissions) (st' : SPState),
      st.service_principal_id = some i →
      env.sp_record_app_roles = .ok roles →
      get_assigned_permissions env st = (.ok perms, st') →
      perms = roles.map (fun r =>
        { id := r.id, description := r.description, display_name := r.displayName,
          is_enabled := true, permissions_value := r.value })) :=
  ⟨fun env st perms st' h => gap_ok_enabled env st perms st' h,
   fun env st i roles perms st' hi hroles h => gap_roles env st i roles perms st' hi hroles h⟩

/-- C8 witness: the single app role of `envDemo` comes back enabled, one
permission per role. -/
theorem C8_permissions_always_enabled_witness :
    (get_assigned_permissions envDemo stCached).1 =
      .ok [{ id := "r1", description := some "d", display_name := "Role",
             is_enabled := true, permissions_value := "role.v" }] ∧
    ∀ p ∈ [({ id := "r1", description := some "d", display_name := "Role",
              is_enabled := true, permissions_value := "role.v" } : PrincipalPermissions)],
      p.is_enabled = true := by
  have hfst : (get_assigned_permissions envDemo stCached).1 =
      .ok [{ id := "r1", description := some "d", display_name := "Role",
             is_enabled := true, permissions_value := "role.v" }] := by decide
  refine ⟨hfst, ?_⟩
  have hpair : get_assigned_permissions envDemo stCached =
      (.ok [{ id := "r1", description := some "d", display_name := "Role",
              is_enabled := true, permissions_value := "role.v" }],
        (get_assigned_permissions envDemo stCached).2) := by
    rw [← hfst]
  exact C8_permissions_always_enabled.1 envDemo stCached _ _ hpair

/-- C9: `manual_sync_service_principal` performs exactly one sync cycle on
the calling path (the ghost cycle counter grows by exactly one) and returns
the user result set if and only if no `user_callback` was supplied; with a
callback, the callback receives the user set and the direct return value is
`None`. -/
theorem C9_manual_sync_once (env : Env) (cbs : Callbacks) (st : SPState)
    (out : ManualSyncOut) (st' : SPState)
    (h : manual_sync_service_principal env cbs st = (.ok out, st')) :
    st'.sync_cycles = st.sync_cycles + 1 ∧
    ∃ users, out.user_cb_arg = (if cbs.user_callback then some users else none) ∧
      out.users_ret = (if cbs.user_callback then none else users) :=
  manual_once env cbs st out st' h

/-- The observable outcome of the C9 witness call. -/
def outW : ManualSyncOut :=
  { users_ret := none, user_cb_arg := some (some usersC1), group_cb_arg := none,
    permission_cb_arg := none }

/-- C9 witness: with a user callback supplied, the callback receives the
user set and the direct return value is `None`; the cycle counter grows by
one. -/
theorem C9_manual_sync_once_witness :
    (manual_sync_service_principal envDemo ⟨true, false, false⟩ stValid).1 = .ok outW ∧
    (manual_sync_service_principal envDemo ⟨true, false, false⟩ stValid).2.sync_cycles =
      stValid.sync_cycles + 1 ∧
    ∃ users, outW.user_cb_arg = some users ∧ outW.users_ret = none := by
  have hfst : (manual_sync_service_principal envDemo ⟨true, false, false⟩ stValid).1 =
      .ok outW := by decide
  have hpair : manual_sync_service_principal envDemo ⟨true, false, false⟩ stValid =
      (.ok outW, (manual_sync_service_principal envDemo ⟨true, false, false⟩ stValid).2) := by
    rw [← hfst]
  obtain ⟨hc, users, hu1, hu2⟩ :=
    C9_manual_sync_once envDemo ⟨true, false, false⟩ stValid outW _ hpair
  exact ⟨hfst, hc, users, by simpa using hu1, by simpa using hu2⟩

/-- C10: `get_users_assigned_to_group` returns the empty list on every input
(the local `users` list is never appended to); group members reach the sync
result only because `get_assigned_users` returned the internal (aliased)
`__current_sync_users` list: on the aliased path the result equals the final
internal list, while when the users fetch failed (fresh `[]` returned) the
result stays empty even though members were recorded internally. -/
theorem C10_members_only_via_alias :
    (∀ (env : Env) (g : GroupPrincipal) (st : SPState) (r : List UserPrincipal)
        (st' : SPState),
      get_users_assigned_to_group env g st = (.ok r, st') →
      r = ([] : List UserPrincipal)) ∧
    (∀ (env : Env) (st : SPState) (l : List AppRoleAssignment)
        (users : List UserPrincipal) (st' : SPState),
      env.assignments_for_users = .ok l →
      sync_service_principal env st = (.ok (some users), st') →
      users = st'.current_sync_users) ∧
    (∀ (env : Env) (st : SPState) (msg : String) (users : List UserPrincipal)
        (st' : SPState),
      env.assignments_for_users = .httpError msg →
      sync_service_principal env st = (.ok (some users), st') →
      users = []) :=
  ⟨fun env g st r st' h => gug_ret_eq env g st r st' h,
   fun env st l users st' hl h => sync_shared_result env st l users st' hl h,
   fun env st msg users st' hl h => sync_sep_result env st msg users st' hl h⟩

/-- C10 witness: the group fetch returns `[]` even though `g1` has a member,
and the demo sync result is exactly the final internal working list. -/
theorem C10_members_only_via_alias_witness :
    (get_users_assigned_to_group envDemo ⟨some "g1", "Group One", "pg"⟩ stCached).1 =
      .ok ([] : List UserPrincipal) ∧
    (sync_service_principal envDemo stValid).1 = .ok (some usersC1) ∧
    usersC1 = (sync_service_principal envDemo stValid).2.current_sync_users := by
  have hfst : (sync_service_principal envDemo stValid).1 = .ok (some usersC1) := by decide
  have hpair : sync_service_principal envDemo stValid =
      (.ok (some usersC1), (sync_service_principal envDemo stValid).2) := by
    rw [← hfst]
  refine ⟨by decide, hfst, ?_⟩
  exact C10_members_only_via_alias.2.1 envDemo stValid
    [⟨"u1", "User One", "User", "pd"⟩, ⟨"u2", "User Two", "User", "p2"⟩] usersC1 _ rfl hpair
